import Mathlib

set_option maxRecDepth 100000

/-!
Verification of the batch text-patching scripts in `zscripts/`
(`add_dark_mode.py`, `add_toggle_component.py`, `add_toggle_final.py`,
`manual_toggle_add.py`).

The embedding works on `List Char` ("Chars").  Python regular expressions are
embedded as bespoke backtracking matchers built from a small set of
combinators that reproduce the backtracking order of the CPython `re` engine
for the specific patterns used by the scripts: greedy pieces try the longest
feasible character-class run first, lazy pieces the shortest, and a failure of
a later piece backtracks into the earlier choice points.  File I/O is embedded
as an association list from path to file entry; a `read` of an unreadable file
produces `Except.error`, which models a raised `IOError`; an uncaught
exception is a propagated `Except.error` value.
-/

/-! ## Basic string machinery -/

abbrev Chars := List Char

def chars (s : String) : Chars := s.data

/-- Python `\s` (the six ASCII whitespace characters matched by `re`). -/
def isWS (c : Char) : Bool :=
  c = ' ' || c = '\t' || c = '\n' || c = '\r' || c = '\x0b' || c = '\x0c'

/-- Python `pat in s` (substring containment). -/
def containsSub (pat : Chars) : Chars → Bool
  | [] => pat.isEmpty
  | c :: rest => pat.isPrefixOf (c :: rest) || containsSub pat rest

/-- Number of positions of `s` at which `pat` occurs (for nonempty `pat`,
the number of occurrences of `pat` as a substring, counted with overlap). -/
def countOccur (pat : Chars) : Chars → Nat
  | [] => 0
  | c :: rest => (if pat.isPrefixOf (c :: rest) then 1 else 0) + countOccur pat rest

/-- Python `s[-n:]` — the last at most `n` characters. -/
def lastN (n : Nat) (l : Chars) : Chars := l.drop (l.length - n)

/-- Python `s.lower()` (ASCII model). -/
def lowerChars (l : Chars) : Chars := l.map Char.toLower

/-- Python `s.strip()` (strip leading and trailing whitespace). -/
def stripWS (l : Chars) : Chars :=
  ((l.dropWhile isWS).reverse.dropWhile isWS).reverse

/-! ## Regex combinators

A split of `s` into `(a, b)` with `a ++ b = s` and every character of `a`
satisfying the class predicate `p` models one choice for a `[class]*` piece.
`splitsAsc` lists the choices shortest-first (lazy `*?`), `splitsDesc`
longest-first (greedy `*`), `splitsDescNE` longest-first excluding the empty
choice (greedy `+`). -/

def splitsAsc (p : Char → Bool) : Chars → List (Chars × Chars)
  | [] => [([], [])]
  | c :: cs =>
    ([], c :: cs) ::
      (if p c then (splitsAsc p cs).map (fun ab => (c :: ab.1, ab.2)) else [])

def splitsDesc (p : Char → Bool) (s : Chars) : List (Chars × Chars) :=
  (splitsAsc p s).reverse

def splitsDescNE (p : Char → Bool) (s : Chars) : List (Chars × Chars) :=
  ((splitsAsc p s).filter (fun ab => !ab.1.isEmpty)).reverse

/-- Try the alternatives in order, keeping the first success (the
backtracking order of the `re` engine). -/
def firstSome {α β : Type} : List α → (α → Option β) → Option β
  | [], _ => none
  | a :: rest, f => match f a with | some b => some b | none => firstSome rest f

/-- Consume a literal piece of the pattern. -/
def lit (l : Chars) (s : Chars) : Option Chars :=
  if l.isPrefixOf s then some (s.drop l.length) else none

/-- A zero-width check that a literal follows (used when the match must end
exactly before the literal). -/
def checkLit (l : Chars) (s : Chars) : Option Unit :=
  if l.isPrefixOf s then some () else none

/-- Python `re.search`: try the match function at each position from the left;
on success return the text before the match together with the match value. -/
def searchFrom {G : Type} (m : Chars → Option G) : Chars → Option (Chars × G)
  | [] => match m [] with
    | some g => some ([], g)
    | none => none
  | c :: cs => match m (c :: cs) with
    | some g => some ([], g)
    | none => match searchFrom m cs with
      | some (pre, g) => some (c :: pre, g)
      | none => none

/-- Python `re.finditer` (fuelled): the non-overlapping matches scanning from
the left, each listed with the full text preceding it.  `consumedOf`/`restOf`
recover the matched text and the text after the match from a match value.
All patterns used here have nonempty matches, so fuel `s.length + 1` is
never exhausted. -/
def finditerFuel {G : Type} (m : Chars → Option G) (consumedOf restOf : G → Chars) :
    Nat → Chars → List (Chars × G)
  | 0, _ => []
  | fuel + 1, s =>
    match searchFrom m s with
    | none => []
    | some (pre, g) =>
      (pre, g) ::
        (finditerFuel m consumedOf restOf fuel (restOf g)).map
          (fun pg => (pre ++ consumedOf g ++ pg.1, pg.2))

/-! ## File system and console model -/

inductive FileEntry
  | absent
  | unreadable (msg : String)
  | text (content : Chars)
deriving DecidableEq

abbrev FS := List (String × FileEntry)

def FS.get (fs : FS) (p : String) : FileEntry :=
  match fs with
  | [] => .absent
  | e :: rest => if e.1 = p then e.2 else FS.get rest p

/-- Python `Path(p).exists()`. -/
def FS.pathExists (fs : FS) (p : String) : Bool :=
  match FS.get fs p with
  | .absent => false
  | _ => true

/-- Python `open(p).read()`: raises (models as `Except.error`) when the file
is absent or unreadable. -/
def FS.read (fs : FS) (p : String) : Except String Chars :=
  match FS.get fs p with
  | .absent => .error "No such file or directory"
  | .unreadable msg => .error msg
  | .text c => .ok c

/-- Python `open(p, 'w').write(c)`. -/
def FS.write (fs : FS) (p : String) (c : Chars) : FS :=
  match fs with
  | [] => [(p, .text c)]
  | e :: rest => if e.1 = p then (p, .text c) :: rest else e :: FS.write rest p c

/-- The per-file console messages the scripts print. -/
inductive LogEvent
  | processingEv (p : String)
  | okEv (p : String)
  | skipEv (p : String)
  | manualEv (p : String)
  | failedEv (p : String)
  | errEv (p : String) (msg : String)
  | warnNotFound (p : String)
deriving DecidableEq

/-- Python `str` of a `bool`. -/
def pyStr : Bool → String
  | true => "True"
  | false => "False"

/-! ## `add_dark_mode.py` -/

namespace AddDarkMode

/-- `CLASS_MAPPINGS` (`add_dark_mode.py` lines 10-21).  Every key has the
shape `base(?!\s*dark:)`; the table stores `(base, replacement)` and the
shared negative lookahead is implemented once in `reSubDark`. -/
def CLASS_MAPPINGS : List (Chars × Chars) := [
  (chars "bg-gray-50", chars "bg-gray-50 dark:bg-gray-900"),
  (chars "bg-gray-100", chars "bg-gray-100 dark:bg-gray-900"),
  (chars "bg-white", chars "bg-white dark:bg-gray-800"),
  (chars "text-gray-600", chars "text-gray-600 dark:text-gray-300"),
  (chars "text-gray-700", chars "text-gray-700 dark:text-gray-200"),
  (chars "text-gray-800", chars "text-gray-800 dark:text-gray-100"),
  (chars "text-gray-900", chars "text-gray-900 dark:text-white"),
  (chars "text-green-800", chars "text-green-800 dark:text-green-400"),
  (chars "text-blue-600", chars "text-blue-600 dark:text-blue-400"),
  (chars "text-indigo-600", chars "text-indigo-600 dark:text-indigo-400")]

/-- The negative lookahead `(?!\s*dark:)` of every `CLASS_MAPPINGS` key:
`true` iff the text starts with optional whitespace followed by `dark:`
(so the occurrence is NOT replaced). -/
def lookaheadDark : Chars → Bool
  | [] => false
  | c :: rest =>
    if isWS c then lookaheadDark rest
    else (chars "dark:").isPrefixOf (c :: rest)

/-- Python `re.sub(base + "(?!\s*dark:)", repl, s)`: scan left to right,
replacing each occurrence of `base` that is not followed by optional
whitespace and `dark:`, and continue after the replaced occurrence.
Structural recursion on a fuel argument; `s.length` fuel suffices since
every step consumes at least one character of `s` (the keys of
`CLASS_MAPPINGS` are nonempty). -/
def reSubDarkFuel (base repl : Chars) : Nat → Chars → Chars
  | _, [] => []
  | 0, s => s
  | fuel + 1, c :: rest =>
    if base.isPrefixOf (c :: rest) && !lookaheadDark ((c :: rest).drop base.length) then
      repl ++ reSubDarkFuel base repl fuel ((c :: rest).drop base.length)
    else
      c :: reSubDarkFuel base repl fuel rest

def reSubDark (base repl s : Chars) : Chars :=
  reSubDarkFuel base repl s.length s

/-- A bare occurrence of a mapping key: some position of `s` starts with
`base` not followed by the `(?!\s*dark:)` lookahead — exactly the
occurrences `reSubDark` replaces. -/
def hasBare (base : Chars) : Chars → Bool
  | [] => false
  | c :: rest =>
    (base.isPrefixOf (c :: rest) && !lookaheadDark ((c :: rest).drop base.length)) ||
      hasBare base rest

/-- The loop body of `add_dark_mode_classes` (`add_dark_mode.py` lines 53-59):
apply each mapping in table order, recording whether any changed the text. -/
def applyMappings : List (Chars × Chars) → Chars × Bool → Chars × Bool
  | [], acc => acc
  | (pat, repl) :: more, (content, modified) =>
    let newContent := reSubDark pat repl content
    applyMappings more (newContent, if newContent ≠ content then true else modified)

/-- `add_dark_mode_classes` (`add_dark_mode.py` lines 51-61). -/
def add_dark_mode_classes (content : Chars) : Chars × Bool :=
  applyMappings CLASS_MAPPINGS (content, false)

/-- `get_import_path` (`add_dark_mode.py` lines 23-29). -/
def get_import_path (filePath : String) : String :=
  if (filePath.splitOn "/").contains "auth" then "../components/DarkModeToggle"
  else "../../components/DarkModeToggle"

/-- The `import_statement` built by `add_import` (`add_dark_mode.py` line 37). -/
def import_statement (filePath : String) : Chars :=
  chars ("import DarkModeToggle from \x27" ++ get_import_path filePath ++ "\x27;")

/-- One character of the class `['\"]`. -/
def quoteChar (s : Chars) : Option (Char × Chars) :=
  match s with
  | [] => none
  | c :: rest => if c = Char.ofNat 39 || c = '"' then some (c, rest) else none

/-- Anchored match of the import pattern
`import\s+.*?from\s+['\"].*?['\"];` (`add_dark_mode.py` line 40): returns
`(consumed, rest)`.  `\s+` is greedy, `.*?` is lazy and (no `re.DOTALL`)
does not cross newlines. -/
def matchImportAt (s : Chars) : Option (Chars × Chars) :=
  (lit (chars "import") s).bind fun r1 =>
  firstSome (splitsDescNE isWS r1) fun (w1, r2) =>
  firstSome (splitsAsc (fun c => c ≠ '\n') r2) fun (d1, r3) =>
  (lit (chars "from") r3).bind fun r4 =>
  firstSome (splitsDescNE isWS r4) fun (w2, r5) =>
  (quoteChar r5).bind fun (q1, r6) =>
  firstSome (splitsAsc (fun c => c ≠ '\n') r6) fun (d2, r7) =>
  (quoteChar r7).bind fun (q2, r8) =>
  (lit (chars ";") r8).map fun r9 =>
  (chars "import" ++ w1 ++ d1 ++ chars "from" ++ w2 ++ [q1] ++ d2 ++ [q2] ++ chars ";", r9)

/-- The `re.finditer` loop of `add_import` condensed to what the code uses
(`add_dark_mode.py` lines 41-45): the split of the content at the end of the
last import match, or `none` when there is no match. -/
def importSplitFuel : Nat → Chars → Option (Chars × Chars)
  | 0, _ => none
  | fuel + 1, s =>
    match searchFrom matchImportAt s with
    | none => none
    | some (pre, (consumed, rest)) =>
      match importSplitFuel fuel rest with
      | none => some (pre ++ consumed, rest)
      | some (a, b) => some (pre ++ consumed ++ a, b)

def importSplit (s : Chars) : Option (Chars × Chars) :=
  importSplitFuel (s.length + 1) s

/-- `add_import` (`add_dark_mode.py` lines 31-49). -/
def add_import (content : Chars) (filePath : String) : Chars × Bool :=
  if containsSub (chars "DarkModeToggle") content then (content, false)
  else
    match importSplit content with
    | some (a, b) => (a ++ chars "\n" ++ import_statement filePath ++ b, true)
    | none => (content, false)

/-- The optional group 2 plus the zero-width group-3 check of the
`notification_pattern` (`add_dark_mode.py` line 69), `re.DOTALL` so `.`
matches any character: `(\/\*.*?Notification Bell.*?\*\/\s*)?(<NotificationBell)`.
Returns `(group2Consumed, restAtGroup3)`, trying the group present first. -/
def notifTailWithG2 (r1 : Chars) : Option (Chars × Chars) :=
  (lit (chars "/*") r1).bind fun a1 =>
  firstSome (splitsAsc (fun _ => true) a1) fun (d1, a2) =>
  (lit (chars "Notification Bell") a2).bind fun a3 =>
  firstSome (splitsAsc (fun _ => true) a3) fun (d2, a4) =>
  (lit (chars "*/") a4).bind fun a5 =>
  firstSome (splitsDesc isWS a5) fun (w, a6) =>
  (checkLit (chars "<NotificationBell") a6).map fun _ =>
    (chars "/*" ++ d1 ++ chars "Notification Bell" ++ d2 ++ chars "*/" ++ w, a6)

def notifTail (r1 : Chars) : Option (Chars × Chars) :=
  match notifTailWithG2 r1 with
  | some r => some r
  | none => (checkLit (chars "<NotificationBell") r1).map fun _ => ([], r1)

/-- Anchored match of the `notification_pattern`
`(\s*)(\/\*.*?Notification Bell.*?\*\/\s*)?(<NotificationBell)`
(`add_dark_mode.py` line 69): `(indent, group2Consumed, restAtGroup3)`. -/
def matchNotifAt (s : Chars) : Option (Chars × Chars × Chars) :=
  firstSome (splitsDesc isWS s) fun (g1, r1) =>
    (notifTail r1).map fun gr => (g1, gr.1, gr.2)

/-- Anchored match of the `logout_pattern` `(<button[^>]*?onClick={handleLogout})`
(`add_dark_mode.py` line 79): `(buttonTag, rest)`. -/
def matchLogoutBtnAt (s : Chars) : Option (Chars × Chars) :=
  (lit (chars "<button") s).bind fun r1 =>
  firstSome (splitsAsc (fun c => c ≠ '>') r1) fun (d, r2) =>
  (lit (chars "onClick={handleLogout}") r2).map fun r3 =>
  (chars "<button" ++ d ++ chars "onClick={handleLogout}", r3)

/-- Anchored match of the `container_pattern`
`(<div[^>]*?className="[^"]*flex[^"]*"[^>]*>)([^<]*?)` + `re.escape(buttonTag)`
(`add_dark_mode.py` line 84): `(divTag, group2, restAfterButton)`. -/
def matchContainerAt (btn : Chars) (s : Chars) : Option (Chars × Chars × Chars) :=
  (lit (chars "<div") s).bind fun r1 =>
  firstSome (splitsAsc (fun c => c ≠ '>') r1) fun (d1, r2) =>
  (lit (chars "className=\"") r2).bind fun r3 =>
  firstSome (splitsDesc (fun c => c ≠ '"') r3) fun (d2, r4) =>
  (lit (chars "flex") r4).bind fun r5 =>
  firstSome (splitsDesc (fun c => c ≠ '"') r5) fun (d3, r6) =>
  (lit (chars "\"") r6).bind fun r7 =>
  firstSome (splitsDesc (fun c => c ≠ '>') r7) fun (d4, r8) =>
  (lit (chars ">") r8).bind fun r9 =>
  firstSome (splitsAsc (fun c => c ≠ '<') r9) fun (g2, r10) =>
  (lit btn r10).map fun r11 =>
  (chars "<div" ++ d1 ++ chars "className=\"" ++ d2 ++ chars "flex" ++ d3 ++
     chars "\"" ++ d4 ++ chars ">", g2, r11)

/-- `add_dark_mode_toggle` (`add_dark_mode.py` lines 63-96). -/
def add_dark_mode_toggle (content : Chars) : Chars × Bool :=
  if containsSub (chars "<DarkModeToggle />") content then (content, false)
  else
    match searchFrom matchNotifAt content with
    | some (pre, (g1, g2, r3)) =>
      let indent := g1
      let insertText := chars "\n" ++ indent ++ chars "{/* Dark Mode Toggle */}\n" ++
        indent ++ chars "<DarkModeToggle />\n" ++ indent
      (pre ++ g1 ++ g2 ++ insertText ++ r3, true)
    | none =>
      match searchFrom matchLogoutBtnAt content with
      | some (_, (btn, _)) =>
        match searchFrom (matchContainerAt btn) content with
        | some (pre, (divTag, g2, rest)) =>
          let indent := if (stripWS g2).isEmpty then chars "              " else g2
          let insertText := chars "\n" ++ indent ++ chars "<DarkModeToggle />\n" ++ indent
          (pre ++ divTag ++ g2 ++ insertText ++ btn ++ rest, true)
        | none => (content, false)
      | none => (content, false)

/-- The pure content transformation of `process_file`
(`add_dark_mode.py` lines 106-123): import, then classes, then toggle. -/
def transformContent (filePath : String) (content : Chars) : Chars :=
  let c1 := (add_import content filePath).1
  let c2 := (add_dark_mode_classes c1).1
  let c3 := (add_dark_mode_toggle c2).1
  c3

/-- `process_file` (`add_dark_mode.py` lines 98-136).  The `try`/`except`
around the body catches every exception (here: a failing read) and yields
`False`; a changed content is written back. -/
def process_file (fs : FS) (p : String) : FS × Bool × List LogEvent :=
  match FS.read fs p with
  | .error e => (fs, false, [.processingEv p, .errEv p e])
  | .ok content =>
    let newContent := transformContent p content
    if newContent ≠ content then
      (FS.write fs p newContent, true, [.processingEv p, .okEv p])
    else
      (fs, false, [.processingEv p, .skipEv p])

/-- The per-file loop of `main` (`add_dark_mode.py` lines 196-209) over a
file list: returns `(fs, total_files, modified_files, log)`. -/
def main (fs : FS) : List String → FS × Nat × Nat × List LogEvent
  | [] => (fs, 0, 0, [])
  | p :: rest =>
    if FS.pathExists fs p then
      let r := process_file fs p
      let m := main r.1 rest
      (m.1, m.2.1 + 1, (if r.2.1 then 1 else 0) + m.2.2.1, r.2.2 ++ m.2.2.2)
    else
      let m := main fs rest
      (m.1, m.2.1, m.2.2.1, .warnNotFound p :: m.2.2.2)

end AddDarkMode

/-! ## `add_toggle_component.py` -/

namespace AddToggleComponent

/-- The `toggle_html` inserted by `add_toggle_to_auth_page`
(`add_toggle_component.py` lines 17-22). -/
def toggle_html : Chars :=
  chars "\n      {/* Dark Mode Toggle */}\n      <div className=\"absolute top-4 right-4\">\n        <DarkModeToggle />\n      </div>\n"

/-- Anchored match of the auth-page anchor
`(return\s*\(\s*<div className="min-h-screen[^"]*">)`
(`add_toggle_component.py` line 12). -/
structure MAuth where
  consumed : Chars
  rest : Chars

def matchAuthAt (s : Chars) : Option MAuth :=
  (lit (chars "return") s).bind fun r1 =>
  firstSome (splitsDesc isWS r1) fun (w1, r2) =>
  (lit (chars "(") r2).bind fun r3 =>
  firstSome (splitsDesc isWS r3) fun (w2, r4) =>
  (lit (chars "<div className=\"min-h-screen") r4).bind fun r5 =>
  firstSome (splitsDesc (fun c => c ≠ '"') r5) fun (cls, r6) =>
  (lit (chars "\">") r6).map fun r7 =>
  { consumed := chars "return" ++ w1 ++ chars "(" ++ w2 ++
      chars "<div className=\"min-h-screen" ++ cls ++ chars "\">",
    rest := r7 }

/-- `add_toggle_to_auth_page` (`add_toggle_component.py` lines 9-25):
insert `toggle_html` at the end of the matched anchor. -/
def add_toggle_to_auth_page (content : Chars) : Chars × Bool :=
  match searchFrom matchAuthAt content with
  | some (pre, m) => (pre ++ m.consumed ++ toggle_html ++ m.rest, true)
  | none => (content, false)

/-- Anchored match of standard-page pattern 1 `(\s+)(\/\* Notification Bell \*\/)`
(`add_toggle_component.py` line 33): `(indent, restAtGroup2)`. -/
def matchP1At (s : Chars) : Option (Chars × Chars) :=
  firstSome (splitsDescNE isWS s) fun (g1, r1) =>
  (checkLit (chars "/* Notification Bell */") r1).map fun _ => (g1, r1)

/-- Anchored match of standard-page pattern 2
`(<div[^>]*className="[^"]*flex[^"]*space-x-[^"]*"[^>]*>)(\s*)(<NotificationBell)`
(`add_toggle_component.py` line 42): `(divTag, whitespace, restAfterBell)`. -/
def matchP2At (s : Chars) : Option (Chars × Chars × Chars) :=
  (lit (chars "<div") s).bind fun r1 =>
  firstSome (splitsDesc (fun c => c ≠ '>') r1) fun (d1, r2) =>
  (lit (chars "className=\"") r2).bind fun r3 =>
  firstSome (splitsDesc (fun c => c ≠ '"') r3) fun (d2, r4) =>
  (lit (chars "flex") r4).bind fun r5 =>
  firstSome (splitsDesc (fun c => c ≠ '"') r5) fun (d3, r6) =>
  (lit (chars "space-x-") r6).bind fun r7 =>
  firstSome (splitsDesc (fun c => c ≠ '"') r7) fun (d4, r8) =>
  (lit (chars "\"") r8).bind fun r9 =>
  firstSome (splitsDesc (fun c => c ≠ '>') r9) fun (d5, r10) =>
  (lit (chars ">") r10).bind fun r11 =>
  firstSome (splitsDesc isWS r11) fun (g2, r12) =>
  (lit (chars "<NotificationBell") r12).map fun r13 =>
  (chars "<div" ++ d1 ++ chars "className=\"" ++ d2 ++ chars "flex" ++ d3 ++
     chars "space-x-" ++ d4 ++ chars "\"" ++ d5 ++ chars ">", g2, r13)

/-- Anchored match of standard-page pattern 3
`(<div[^>]*className="[^"]*flex[^"]*items-center[^"]*"[^>]*>)([^<]*?)(<button[^>]*?onClick={handleLogout})`
(`add_toggle_component.py` line 54): `(divTag, whitespace, buttonTag, rest)`. -/
def matchP3At (s : Chars) : Option (Chars × Chars × Chars × Chars) :=
  (lit (chars "<div") s).bind fun r1 =>
  firstSome (splitsDesc (fun c => c ≠ '>') r1) fun (d1, r2) =>
  (lit (chars "className=\"") r2).bind fun r3 =>
  firstSome (splitsDesc (fun c => c ≠ '"') r3) fun (d2, r4) =>
  (lit (chars "flex") r4).bind fun r5 =>
  firstSome (splitsDesc (fun c => c ≠ '"') r5) fun (d3, r6) =>
  (lit (chars "items-center") r6).bind fun r7 =>
  firstSome (splitsDesc (fun c => c ≠ '"') r7) fun (d4, r8) =>
  (lit (chars "\"") r8).bind fun r9 =>
  firstSome (splitsDesc (fun c => c ≠ '>') r9) fun (d5, r10) =>
  (lit (chars ">") r10).bind fun r11 =>
  firstSome (splitsAsc (fun c => c ≠ '<') r11) fun (g2, r12) =>
  (lit (chars "<button") r12).bind fun r13 =>
  firstSome (splitsAsc (fun c => c ≠ '>') r13) fun (d6, r14) =>
  (lit (chars "onClick={handleLogout}") r14).map fun r15 =>
  (chars "<div" ++ d1 ++ chars "className=\"" ++ d2 ++ chars "flex" ++ d3 ++
     chars "items-center" ++ d4 ++ chars "\"" ++ d5 ++ chars ">",
   g2, chars "<button" ++ d6 ++ chars "onClick={handleLogout}", r15)

/-- Anchored match of standard-page pattern 4 `(\/\* Actions \*\/\s*<div[^>]*>)`
(`add_toggle_component.py` line 67): `(consumed, rest)`. -/
def matchP4At (s : Chars) : Option (Chars × Chars) :=
  (lit (chars "/* Actions */") s).bind fun r1 =>
  firstSome (splitsDesc isWS r1) fun (w, r2) =>
  (lit (chars "<div") r2).bind fun r3 =>
  firstSome (splitsDesc (fun c => c ≠ '>') r3) fun (d, r4) =>
  (lit (chars ">") r4).map fun r5 =>
  (chars "/* Actions */" ++ w ++ chars "<div" ++ d ++ chars ">", r5)

/-- `add_toggle_to_standard_page` (`add_toggle_component.py` lines 27-75):
try the four patterns in order, first match wins. -/
def add_toggle_to_standard_page (content : Chars) : Chars × Bool :=
  match searchFrom matchP1At content with
  | some (pre, (indent, restAtG2)) =>
    let insertText := indent ++ chars "{/* Dark Mode Toggle */}\n" ++ indent ++
      chars "<DarkModeToggle />\n\n" ++ indent
    (pre ++ insertText ++ indent ++ restAtG2, true)
  | none =>
  match searchFrom matchP2At content with
  | some (pre, (divTag, whitespace, rest)) =>
    let indent := if stripWS whitespace = [] then whitespace else chars "\n              "
    let insertText := divTag ++ indent ++ chars "<DarkModeToggle />" ++ indent ++
      chars "<NotificationBell"
    (pre ++ insertText ++ rest, true)
  | none =>
  match searchFrom matchP3At content with
  | some (pre, (divTag, whitespace, buttonTag, rest)) =>
    let indent := if whitespace.contains '\n' then chars "\n              " else chars " "
    let insertText := divTag ++ whitespace ++ chars "<DarkModeToggle />" ++ indent ++ buttonTag
    (pre ++ insertText ++ rest, true)
  | none =>
  match searchFrom matchP4At content with
  | some (pre, (consumed, rest)) =>
    let insertText := chars "\n              <DarkModeToggle />\n              "
    (pre ++ consumed ++ insertText ++ rest, true)
  | none => (content, false)

/-- `process_file` (`add_toggle_component.py` lines 77-112). -/
def process_file (fs : FS) (p : String) : FS × Bool × List LogEvent :=
  match FS.read fs p with
  | .error e => (fs, false, [.errEv p e])
  | .ok content =>
    if containsSub (chars "<DarkModeToggle") content then (fs, false, [.skipEv p])
    else if !containsSub (chars "import DarkModeToggle") content then (fs, false, [.skipEv p])
    else
      let r := if containsSub (chars "auth") (chars p) then
          add_toggle_to_auth_page content
        else
          add_toggle_to_standard_page content
      if r.2 then (FS.write fs p r.1, true, [.okEv p])
      else (fs, false, [.manualEv p])

/-- The per-file loop of `main` (`add_toggle_component.py` lines 148-157):
`(fs, modified_count, manual_count, log)`.  Mirrors the counter logic
verbatim, including the `elif '[MANUAL]' in str(result)` test on the
boolean `result`. -/
def main (fs : FS) : List String → FS × Nat × Nat × List LogEvent
  | [] => (fs, 0, 0, [])
  | p :: rest =>
    if FS.pathExists fs p then
      let r := process_file fs p
      let m := main r.1 rest
      (m.1,
       (if r.2.1 then 1 else 0) + m.2.1,
       (if !r.2.1 && containsSub (chars "[MANUAL]") (chars (pyStr r.2.1)) then 1 else 0) + m.2.2.1,
       r.2.2 ++ m.2.2.2)
    else
      let m := main fs rest
      (m.1, m.2.1, m.2.2.1, .warnNotFound p :: m.2.2.2)

end AddToggleComponent

/-! ## `add_toggle_final.py` -/

namespace AddToggleFinal

/-- Anchored match of generic pattern 1
`(<div className="flex items-center gap-\d+">)(\s*)`
(`add_toggle_final.py` line 12): `(divTag, whitespace, rest)`. -/
def matchG1At (s : Chars) : Option (Chars × Chars × Chars) :=
  (lit (chars "<div className=\"flex items-center gap-") s).bind fun r1 =>
  firstSome (splitsDescNE (fun c => c.isDigit) r1) fun (ds, r2) =>
  (lit (chars "\">") r2).bind fun r3 =>
  firstSome (splitsDesc isWS r3) fun (w, r4) =>
  some (chars "<div className=\"flex items-center gap-" ++ ds ++ chars "\">", w, r4)

/-- Anchored match of generic pattern 2
`(<div[^>]*className="[^"]*flex[^"]*space-x-\d+[^"]*"[^>]*>)(\s*)`
(`add_toggle_final.py` line 26): `(divTag, whitespace, rest)`. -/
def matchG2At (s : Chars) : Option (Chars × Chars × Chars) :=
  (lit (chars "<div") s).bind fun r1 =>
  firstSome (splitsDesc (fun c => c ≠ '>') r1) fun (d1, r2) =>
  (lit (chars "className=\"") r2).bind fun r3 =>
  firstSome (splitsDesc (fun c => c ≠ '"') r3) fun (d2, r4) =>
  (lit (chars "flex") r4).bind fun r5 =>
  firstSome (splitsDesc (fun c => c ≠ '"') r5) fun (d3, r6) =>
  (lit (chars "space-x-") r6).bind fun r7 =>
  firstSome (splitsDescNE (fun c => c.isDigit) r7) fun (ds, r8) =>
  firstSome (splitsDesc (fun c => c ≠ '"') r8) fun (d4, r9) =>
  (lit (chars "\"") r9).bind fun r10 =>
  firstSome (splitsDesc (fun c => c ≠ '>') r10) fun (d5, r11) =>
  (lit (chars ">") r11).bind fun r12 =>
  firstSome (splitsDesc isWS r12) fun (w, r13) =>
  some (chars "<div" ++ d1 ++ chars "className=\"" ++ d2 ++ chars "flex" ++ d3 ++
     chars "space-x-" ++ ds ++ d4 ++ chars "\"" ++ d5 ++ chars ">", w, r13)

/-- Anchored match of generic pattern 3
`(<div[^>]*className="[^"]*flex[^>]*>)(\s*)(<Link to="/[^/]+/dashboard")`
(`add_toggle_final.py` line 39): `(divTag, whitespace, linkTag, rest)`. -/
def matchG3At (s : Chars) : Option (Chars × Chars × Chars × Chars) :=
  (lit (chars "<div") s).bind fun r1 =>
  firstSome (splitsDesc (fun c => c ≠ '>') r1) fun (d1, r2) =>
  (lit (chars "className=\"") r2).bind fun r3 =>
  firstSome (splitsDesc (fun c => c ≠ '"') r3) fun (d2, r4) =>
  (lit (chars "flex") r4).bind fun r5 =>
  firstSome (splitsDesc (fun c => c ≠ '>') r5) fun (d3, r6) =>
  (lit (chars ">") r6).bind fun r7 =>
  firstSome (splitsDesc isWS r7) fun (w, r8) =>
  (lit (chars "<Link to=\"/") r8).bind fun r9 =>
  firstSome (splitsDescNE (fun c => c ≠ '/') r9) fun (seg, r10) =>
  (lit (chars "/dashboard\"") r10).map fun r11 =>
  (chars "<div" ++ d1 ++ chars "className=\"" ++ d2 ++ chars "flex" ++ d3 ++ chars ">",
   w, chars "<Link to=\"/" ++ seg ++ chars "/dashboard\"", r11)

/-- The `finditer` match list for pattern 1 (`add_toggle_final.py` line 13),
each match given with the absolute text before it. -/
def g1Matches (content : Chars) : List (Chars × (Chars × Chars × Chars)) :=
  finditerFuel matchG1At (fun g => g.1 ++ g.2.1) (fun g => g.2.2)
    (content.length + 1) content

/-- The `finditer` match list for pattern 2 (`add_toggle_final.py` line 27). -/
def g2Matches (content : Chars) : List (Chars × (Chars × Chars × Chars)) :=
  finditerFuel matchG2At (fun g => g.1 ++ g.2.1) (fun g => g.2.2)
    (content.length + 1) content

/-- The pattern-1 loop of `add_toggle_generic` (`add_toggle_final.py`
lines 12-23): matches are processed from the end (`reversed(matches)`), the
first one with no `<DarkModeToggle` in the following 200 characters wins. -/
def attempt1 (content : Chars) : Option Chars :=
  firstSome (g1Matches content).reverse fun (pre, (divTag, w, rest)) =>
    let nearby := rest.take 200
    if !containsSub (chars "<DarkModeToggle") nearby then
      let whitespace := if w.isEmpty then chars "\n              " else w
      some (pre ++ divTag ++ whitespace ++ chars "<DarkModeToggle />" ++ whitespace ++ rest)
    else none

/-- The pattern-2 loop of `add_toggle_generic` (`add_toggle_final.py`
lines 26-36): like pattern 1, but the following 200 characters must also
contain `logout` (case-insensitively). -/
def attempt2 (content : Chars) : Option Chars :=
  firstSome (g2Matches content).reverse fun (pre, (divTag, w, rest)) =>
    let nearby := rest.take 200
    if !containsSub (chars "<DarkModeToggle") nearby &&
        containsSub (chars "logout") (lowerChars nearby) then
      let whitespace := if w.isEmpty then chars "\n              " else w
      some (pre ++ divTag ++ whitespace ++ chars "<DarkModeToggle />" ++ whitespace ++ rest)
    else none

/-- The pattern-3 branch of `add_toggle_generic` (`add_toggle_final.py`
lines 39-49): single `re.search`, checking the 100 characters around the
match for `<DarkModeToggle`. -/
def attempt3 (content : Chars) : Option Chars :=
  match searchFrom matchG3At content with
  | none => none
  | some (pre, (divTag, w, linkTag, rest)) =>
    let nearby := lastN 100 pre ++ divTag ++ w ++ linkTag ++ rest.take 100
    if !containsSub (chars "<DarkModeToggle") nearby then
      let whitespace := if w.isEmpty then chars "\n              " else w
      some (pre ++ divTag ++ whitespace ++ chars "<DarkModeToggle />" ++ whitespace ++
        linkTag ++ rest)
    else none

/-- `add_toggle_generic` (`add_toggle_final.py` lines 8-51). -/
def add_toggle_generic (content : Chars) : Chars × Bool :=
  match attempt1 content with
  | some nc => (nc, true)
  | none =>
  match attempt2 content with
  | some nc => (nc, true)
  | none =>
  match attempt3 content with
  | some nc => (nc, true)
  | none => (content, false)

/-- The pure content transformation of `process_file`
(`add_toggle_final.py` lines 56-75). -/
def transformContent (content : Chars) : Chars :=
  if containsSub (chars "<DarkModeToggle") content then content
  else if !containsSub (chars "import DarkModeToggle") content then content
  else
    let r := add_toggle_generic content
    if r.2 then r.1 else content

/-- `process_file` (`add_toggle_final.py` lines 53-79). -/
def process_file (fs : FS) (p : String) : FS × Bool × List LogEvent :=
  match FS.read fs p with
  | .error e => (fs, false, [.errEv p e])
  | .ok content =>
    if containsSub (chars "<DarkModeToggle") content then (fs, false, [])
    else if !containsSub (chars "import DarkModeToggle") content then (fs, false, [])
    else
      let r := add_toggle_generic content
      if r.2 then (FS.write fs p r.1, true, [.okEv p])
      else (fs, false, [.manualEv p])

/-- The per-file loop of `main` (`add_toggle_final.py` lines 108-110):
`if Path(f).exists() and process_file(Path(f)): modified += 1` — a missing
file is skipped silently. -/
def main (fs : FS) : List String → FS × Nat × List LogEvent
  | [] => (fs, 0, [])
  | p :: rest =>
    if FS.pathExists fs p then
      let r := process_file fs p
      let m := main r.1 rest
      (m.1, (if r.2.1 then 1 else 0) + m.2.1, r.2.2 ++ m.2.2)
    else
      main fs rest

end AddToggleFinal

/-! ## `manual_toggle_add.py` -/

namespace ManualToggleAdd

/-- Anchored match of the pattern
`(<Link to="/[^/]+/dashboard"[^>]*>[^<]*</Link>)`
(`manual_toggle_add.py` line 33): `(linkTag, rest)`. -/
def matchLinkAt (s : Chars) : Option (Chars × Chars) :=
  (lit (chars "<Link to=\"/") s).bind fun r1 =>
  firstSome (splitsDescNE (fun c => c ≠ '/') r1) fun (seg, r2) =>
  (lit (chars "/dashboard\"") r2).bind fun r3 =>
  firstSome (splitsDesc (fun c => c ≠ '>') r3) fun (attrs, r4) =>
  (lit (chars ">") r4).bind fun r5 =>
  firstSome (splitsDesc (fun c => c ≠ '<') r5) fun (inner, r6) =>
  (lit (chars "</Link>") r6).map fun r7 =>
  (chars "<Link to=\"/" ++ seg ++ chars "/dashboard\"" ++ attrs ++ chars ">" ++
     inner ++ chars "</Link>", r7)

/-- The patching logic of `add_toggle` (`manual_toggle_add.py` lines 31-47):
`some newContent` when the Link pattern was found, else `none`. -/
def patchContent (content : Chars) : Option Chars :=
  match searchFrom matchLinkAt content with
  | none => none
  | some (pre, (linkTag, rest)) =>
    let before := lastN 100 pre
    if containsSub (chars "<div className=\"flex items-center gap-") before then
      some (pre ++ chars "<DarkModeToggle />\n              " ++ linkTag ++ rest)
    else
      some (pre ++
        chars "<div className=\"flex items-center gap-4\">\n              <DarkModeToggle />\n              " ++
        linkTag ++ chars "\n            </div>" ++ rest)

/-- `add_toggle` (`manual_toggle_add.py` lines 22-55).  The body has NO
`try`/`except`: a failing read propagates as `Except.error`. -/
def add_toggle (fs : FS) (p : String) : Except String (FS × Bool × List LogEvent) := do
  let content ← FS.read fs p
  if containsSub (chars "<DarkModeToggle") content then
    pure (fs, false, [.skipEv p])
  else
    match patchContent content with
    | some newContent => pure (FS.write fs p newContent, true, [.okEv p])
    | none => pure (fs, false, [.failedEv p])

/-- The per-file loop of `main` (`manual_toggle_add.py` lines 58-63): a
missing file is skipped silently; an exception raised by `add_toggle`
propagates and aborts the loop. -/
def main (fs : FS) : List String → Except String (FS × Nat × List LogEvent)
  | [] => .ok (fs, 0, [])
  | p :: rest =>
    if FS.pathExists fs p then do
      let r ← add_toggle fs p
      let m ← main r.1 rest
      pure (m.1, (if r.2.1 then 1 else 0) + m.2.1, r.2.2 ++ m.2.2)
    else
      main fs rest

end ManualToggleAdd

/-! ## General lemmas about the combinators -/

theorem splitsAsc_append (p : Char → Bool) :
    ∀ (s : Chars) (ab : Chars × Chars), ab ∈ splitsAsc p s → ab.1 ++ ab.2 = s := by
  intro s
  induction s with
  | nil => intro ab h; simp [splitsAsc] at h; simp [h]
  | cons c cs ih =>
    intro ab h
    simp only [splitsAsc] at h
    rcases List.mem_cons.mp h with h1 | h2
    · simp [h1]
    · by_cases hp : p c
      · simp [hp] at h2
        obtain ⟨a, b, hmem, heq⟩ := h2
        have := ih (a, b) hmem
        simp at this
        simp [← heq, this]
      · simp [hp] at h2

theorem splitsDesc_append (p : Char → Bool) (s : Chars) (ab : Chars × Chars)
    (h : ab ∈ splitsDesc p s) : ab.1 ++ ab.2 = s :=
  splitsAsc_append p s ab (List.mem_reverse.mp h)

theorem splitsDescNE_append (p : Char → Bool) (s : Chars) (ab : Chars × Chars)
    (h : ab ∈ splitsDescNE p s) : ab.1 ++ ab.2 = s :=
  splitsAsc_append p s ab (List.mem_of_mem_filter (List.mem_reverse.mp h))

theorem firstSome_eq_some {α β : Type} {l : List α} {f : α → Option β} {b : β}
    (h : firstSome l f = some b) : ∃ a, a ∈ l ∧ f a = some b := by
  induction l with
  | nil => simp [firstSome] at h
  | cons x xs ih =>
    simp only [firstSome] at h
    cases hx : f x with
    | some b0 => rw [hx] at h; exact ⟨x, List.mem_cons_self x xs, hx.trans h⟩
    | none =>
      rw [hx] at h
      obtain ⟨a, hmem, ha⟩ := ih h
      exact ⟨a, List.mem_cons_of_mem x hmem, ha⟩

theorem lit_eq {l s r : Chars} (h : lit l s = some r) : s = l ++ r := by
  unfold lit at h
  by_cases hp : l.isPrefixOf s
  · simp [hp] at h
    obtain ⟨t, rfl⟩ := List.isPrefixOf_iff_prefix.mp hp
    simp at h
    simp [h]
  · simp [hp] at h

theorem quoteChar_eq {s : Chars} {q : Char} {r : Chars}
    (h : AddDarkMode.quoteChar s = some (q, r)) : s = q :: r := by
  cases s with
  | nil => simp [AddDarkMode.quoteChar] at h
  | cons c rest =>
    by_cases hc : c = Char.ofNat 39 || c = '"'
    · simp [AddDarkMode.quoteChar, hc] at h; simp [h.1, h.2]
    · simp [AddDarkMode.quoteChar, hc] at h

/-- The generic splice invariant of `searchFrom`: the text before the match,
the matched text and the rest reassemble to the input, provided the anchored
matcher satisfies the same invariant. -/
theorem searchFrom_split {G : Type} {m : Chars → Option G} {consumedOf restOf : G → Chars}
    (hm : ∀ s g, m s = some g → consumedOf g ++ restOf g = s) :
    ∀ {s : Chars} {pre : Chars} {g : G}, searchFrom m s = some (pre, g) →
      pre ++ consumedOf g ++ restOf g = s := by
  intro s
  induction s with
  | nil =>
    intro pre g h
    simp only [searchFrom] at h
    cases hmm : m [] with
    | some g0 =>
      rw [hmm] at h
      simp only [Option.some.injEq, Prod.mk.injEq] at h
      obtain ⟨rfl, rfl⟩ := h
      simpa using hm [] g0 hmm
    | none => rw [hmm] at h; simp at h
  | cons c cs ih =>
    intro pre g h
    simp only [searchFrom] at h
    cases hmm : m (c :: cs) with
    | some g0 =>
      rw [hmm] at h
      simp only [Option.some.injEq, Prod.mk.injEq] at h
      obtain ⟨rfl, rfl⟩ := h
      simpa using hm (c :: cs) g0 hmm
    | none =>
      rw [hmm] at h
      cases hrec : searchFrom m cs with
      | some pg =>
        obtain ⟨p1, g1⟩ := pg
        rw [hrec] at h
        simp only [Option.some.injEq, Prod.mk.injEq] at h
        obtain ⟨rfl, rfl⟩ := h
        have := ih hrec
        simpa using this
      | none => rw [hrec] at h; simp at h

/-! ## Lemmas about substring containment and occurrence counting -/

theorem prefixOf_of_append {pat a b : Chars} (h : pat.isPrefixOf a = true) :
    pat.isPrefixOf (a ++ b) = true := by
  have h1 := List.isPrefixOf_iff_prefix.mp h
  exact List.isPrefixOf_iff_prefix.mpr (h1.trans (List.prefix_append a b))

theorem containsSub_append_left {pat a : Chars} (b : Chars)
    (h : containsSub pat a = true) : containsSub pat (a ++ b) = true := by
  induction a with
  | nil =>
    simp [containsSub] at h
    subst h
    cases b with
    | nil => simp [containsSub]
    | cons c cs => simp [containsSub, List.isPrefixOf]
  | cons c cs ih =>
    simp only [containsSub, Bool.or_eq_true] at h ⊢
    rcases h with h | h
    · exact Or.inl (prefixOf_of_append h)
    · exact Or.inr (ih h)

theorem containsSub_append_right {pat b : Chars} (a : Chars)
    (h : containsSub pat b = true) : containsSub pat (a ++ b) = true := by
  induction a with
  | nil => simpa using h
  | cons c cs ih =>
    simp only [List.cons_append, containsSub, Bool.or_eq_true]
    exact Or.inr ih

theorem countOccur_eq_zero {pat s : Chars} (h : containsSub pat s = false) :
    countOccur pat s = 0 := by
  induction s with
  | nil => simp [countOccur]
  | cons c cs ih =>
    simp only [containsSub, Bool.or_eq_false_iff] at h
    simp [countOccur, h.1, ih h.2]

/-- A pattern without a newline matches at the border of `a ++ '\n' :: b`
exactly when it matches `a` alone. -/
theorem prefixOf_append_newline {pat : Chars} (hnl : '\n' ∉ pat) :
    ∀ (a b : Chars), pat.isPrefixOf (a ++ '\n' :: b) = pat.isPrefixOf a := by
  induction pat with
  | nil => intro a b; simp [List.isPrefixOf]
  | cons p ps ih =>
    intro a b
    have hp : p ≠ '\n' := fun hc => hnl (hc ▸ List.mem_cons_self p ps)
    have hps : '\n' ∉ ps := fun hc => hnl (List.mem_cons_of_mem p hc)
    cases a with
    | nil =>
      simp only [List.nil_append, List.isPrefixOf]
      have : (p == '\n') = false := by simp [hp]
      simp [this]
    | cons c cs =>
      simp only [List.cons_append, List.isPrefixOf, List.append_eq]
      rw [ih hps cs b]

theorem countOccur_append_newline {pat : Chars} (hnl : '\n' ∉ pat) :
    ∀ (a b : Chars), countOccur pat (a ++ '\n' :: b) =
      countOccur pat a + countOccur pat ('\n' :: b) := by
  intro a b
  induction a with
  | nil => simp [countOccur]
  | cons c cs ih =>
    simp only [List.cons_append, countOccur, List.append_eq]
    have hx := prefixOf_append_newline hnl (c :: cs) b
    simp only [List.cons_append] at hx
    simp only [hx, ih]
    have hy : countOccur pat ('\n' :: b) =
        (if List.isPrefixOf pat ('\n' :: b) = true then 1 else 0) + countOccur pat b := rfl
    omega

theorem countOccur_cons_newline {pat : Chars} (hnl : '\n' ∉ pat) (hne : pat ≠ [])
    (b : Chars) : countOccur pat ('\n' :: b) = countOccur pat b := by
  cases pat with
  | nil => exact absurd rfl hne
  | cons p ps =>
    have hp : p ≠ '\n' := fun hc => hnl (hc ▸ List.mem_cons_self p ps)
    have hpb : (p == '\n') = false := beq_eq_false_iff_ne.mpr hp
    have : (p :: ps).isPrefixOf ('\n' :: b) = false := by
      simp [List.isPrefixOf, hpb]
    simp [countOccur, this]

/-- Occurrence count of a newline-free pattern splits across a block that
starts and ends with a newline. -/
theorem countOccur_splice {pat : Chars} (hnl : '\n' ∉ pat) (hne : pat ≠ [])
    (a mid b : Chars) :
    countOccur pat (a ++ ('\n' :: (mid ++ ['\n'])) ++ b) =
      countOccur pat a + countOccur pat ('\n' :: (mid ++ ['\n'])) + countOccur pat b := by
  have h1 : a ++ ('\n' :: (mid ++ ['\n'])) ++ b = a ++ '\n' :: (mid ++ '\n' :: b) := by
    simp
  rw [h1, countOccur_append_newline hnl, countOccur_cons_newline hnl hne,
    countOccur_cons_newline hnl hne]
  have h2 : mid ++ '\n' :: b = (mid ++ ['\n']) ++ b := by simp
  have h3 : countOccur pat (mid ++ '\n' :: b) = countOccur pat mid + countOccur pat b := by
    rw [countOccur_append_newline hnl, countOccur_cons_newline hnl hne]
  have h5 : countOccur pat ('\n' :: ([] : Chars)) = 0 := by
    rw [countOccur_cons_newline hnl hne]; simp [countOccur]
  have h4 : countOccur pat (mid ++ ['\n']) = countOccur pat mid := by
    have := countOccur_append_newline hnl mid []
    simpa [h5] using this
  rw [h3, h4]
  omega

/-! ## Splice invariants for the anchored matchers used in general theorems -/

theorem matchAuthAt_split {s : Chars} {m : AddToggleComponent.MAuth}
    (h : AddToggleComponent.matchAuthAt s = some m) : m.consumed ++ m.rest = s := by
  unfold AddToggleComponent.matchAuthAt at h
  obtain ⟨r1, h1, h⟩ := Option.bind_eq_some.mp h
  obtain ⟨⟨w1, r2⟩, hm1, h⟩ := firstSome_eq_some h
  obtain ⟨r3, h3, h⟩ := Option.bind_eq_some.mp h
  obtain ⟨⟨w2, r4⟩, hm2, h⟩ := firstSome_eq_some h
  obtain ⟨r5, h5, h⟩ := Option.bind_eq_some.mp h
  obtain ⟨⟨cls, r6⟩, hm3, h⟩ := firstSome_eq_some h
  obtain ⟨r7, h7, hm⟩ := Option.map_eq_some'.mp h
  have e1 := splitsDesc_append _ _ _ hm1
  have e2 := splitsDesc_append _ _ _ hm2
  have e3 := splitsDesc_append _ _ _ hm3
  simp only at e1 e2 e3
  subst hm
  simp only [lit_eq h1, lit_eq h3, lit_eq h5, lit_eq h7, ← e1, ← e2, ← e3]
  simp [List.append_assoc]

theorem matchLinkAt_split {s : Chars} {g : Chars × Chars}
    (h : ManualToggleAdd.matchLinkAt s = some g) : g.1 ++ g.2 = s := by
  unfold ManualToggleAdd.matchLinkAt at h
  obtain ⟨r1, h1, h⟩ := Option.bind_eq_some.mp h
  obtain ⟨⟨seg, r2⟩, hm1, h⟩ := firstSome_eq_some h
  obtain ⟨r3, h3, h⟩ := Option.bind_eq_some.mp h
  obtain ⟨⟨attrs, r4⟩, hm2, h⟩ := firstSome_eq_some h
  obtain ⟨r5, h5, h⟩ := Option.bind_eq_some.mp h
  obtain ⟨⟨inner, r6⟩, hm3, h⟩ := firstSome_eq_some h
  obtain ⟨r7, h7, hm⟩ := Option.map_eq_some'.mp h
  have e1 := splitsDescNE_append _ _ _ hm1
  have e2 := splitsDesc_append _ _ _ hm2
  have e3 := splitsDesc_append _ _ _ hm3
  simp only at e1 e2 e3
  subst hm
  simp only [lit_eq h1, lit_eq h3, lit_eq h5, lit_eq h7, ← e1, ← e2, ← e3]
  simp [List.append_assoc]

/-! ## Lemmas supporting the claim theorems -/

theorem containsSub_of_prefixOf {pat y : Chars} (h : pat.isPrefixOf y = true) :
    containsSub pat y = true := by
  cases y with
  | nil =>
    cases pat with
    | nil => simp [containsSub]
    | cons p ps => simp [List.isPrefixOf] at h
  | cons c cs => simp [containsSub, h]

theorem containsSub_of_part {pat mpart : Chars} (a b : Chars)
    (h : containsSub pat mpart = true) : containsSub pat (a ++ (mpart ++ b)) = true :=
  containsSub_append_right a (containsSub_append_left b h)

/-- If a bare occurrence of `base` exists, the substituted text contains the
replacement. -/
theorem reSubDarkFuel_contains_repl :
    ∀ (fuel : Nat) (base repl s : Chars), s.length ≤ fuel →
      AddDarkMode.hasBare base s = true →
      containsSub repl (AddDarkMode.reSubDarkFuel base repl fuel s) = true := by
  intro fuel
  induction fuel with
  | zero =>
    intro base repl s hs hb
    have : s = [] := List.eq_nil_of_length_eq_zero (Nat.le_zero.mp hs)
    subst this
    simp [AddDarkMode.hasBare] at hb
  | succ n ih =>
    intro base repl s hs hb
    cases s with
    | nil => simp [AddDarkMode.hasBare] at hb
    | cons c rest =>
      rw [AddDarkMode.reSubDarkFuel]
      by_cases hcond : (base.isPrefixOf (c :: rest) &&
          !AddDarkMode.lookaheadDark ((c :: rest).drop base.length)) = true
      · rw [if_pos hcond]
        exact containsSub_append_left _
          (containsSub_of_prefixOf ( List.isPrefixOf_iff_prefix.mpr (List.prefix_refl _)))
      · rw [if_neg hcond]
        have hb' : AddDarkMode.hasBare base rest = true := by
          rw [AddDarkMode.hasBare] at hb
          rcases Bool.or_eq_true_iff.mp hb with h1 | h2
          · exact absurd h1 hcond
          · exact h2
        have hlen : rest.length ≤ n := by
          simp only [List.length_cons] at hs; omega
        have := ih base repl rest hlen hb'
        simp only [containsSub, Bool.or_eq_true]
        exact Or.inr this

/-- `re.search` finds no match exactly when the anchored matcher fails at
every position. -/
theorem searchFrom_eq_none_iff {G : Type} (m : Chars → Option G) :
    ∀ s : Chars, searchFrom m s = none ↔ ∀ i : Nat, m (s.drop i) = none := by
  intro s
  induction s with
  | nil =>
    constructor
    · intro h i
      simp only [searchFrom] at h
      cases hm : m [] with
      | some g => rw [hm] at h; simp at h
      | none => simpa using hm
    · intro h
      simp only [searchFrom]
      have h0 := h 0
      simp only [List.drop_nil] at h0
      rw [h0]
  | cons c cs ih =>
    constructor
    · intro h i
      simp only [searchFrom] at h
      cases hm : m (c :: cs) with
      | some g => rw [hm] at h; simp at h
      | none =>
        rw [hm] at h
        cases i with
        | zero => simpa using hm
        | succ j =>
          have hn : searchFrom m cs = none := by
            cases hrec : searchFrom m cs with
            | some pg => obtain ⟨p1, g1⟩ := pg; rw [hrec] at h; simp at h
            | none => rfl
          simpa using (ih.mp hn) j
    · intro h
      simp only [searchFrom]
      have h0 : m (c :: cs) = none := by simpa using h 0
      rw [h0]
      have hn : searchFrom m cs = none := ih.mpr (fun j => by simpa using h (j + 1))
      rw [hn]

/-- Every successful branch of pattern 1 of `add_toggle_generic` yields
content containing `<DarkModeToggle`. -/
theorem attempt1_contains {c nc : Chars} (h : AddToggleFinal.attempt1 c = some nc) :
    containsSub (chars "<DarkModeToggle") nc = true := by
  unfold AddToggleFinal.attempt1 at h
  obtain ⟨⟨pre, divTag, w, rest⟩, hmem, hf⟩ := firstSome_eq_some h
  simp only at hf
  split at hf
  · simp only [Option.some.injEq] at hf
    subst hf
    have h1 : containsSub (chars "<DarkModeToggle")
        (chars "<DarkModeToggle />" ++
          ((if w.isEmpty then chars "\n              " else w) ++ rest)) = true :=
      containsSub_append_left _ (by decide)
    have h2 := containsSub_append_right
      (pre ++ divTag ++ (if w.isEmpty then chars "\n              " else w)) h1
    simpa [List.append_assoc] using h2
  · simp at hf

/-- Same for pattern 2. -/
theorem attempt2_contains {c nc : Chars} (h : AddToggleFinal.attempt2 c = some nc) :
    containsSub (chars "<DarkModeToggle") nc = true := by
  unfold AddToggleFinal.attempt2 at h
  obtain ⟨⟨pre, divTag, w, rest⟩, hmem, hf⟩ := firstSome_eq_some h
  simp only at hf
  split at hf
  · simp only [Option.some.injEq] at hf
    subst hf
    have h1 : containsSub (chars "<DarkModeToggle")
        (chars "<DarkModeToggle />" ++
          ((if w.isEmpty then chars "\n              " else w) ++ rest)) = true :=
      containsSub_append_left _ (by decide)
    have h2 := containsSub_append_right
      (pre ++ divTag ++ (if w.isEmpty then chars "\n              " else w)) h1
    simpa [List.append_assoc] using h2
  · simp at hf

/-- Same for pattern 3. -/
theorem attempt3_contains {c nc : Chars} (h : AddToggleFinal.attempt3 c = some nc) :
    containsSub (chars "<DarkModeToggle") nc = true := by
  unfold AddToggleFinal.attempt3 at h
  cases hs : searchFrom AddToggleFinal.matchG3At c with
  | none => rw [hs] at h; simp at h
  | some pg =>
    obtain ⟨pre, divTag, w, linkTag, rest⟩ := pg
    rw [hs] at h
    simp only at h
    split at h
    · simp only [Option.some.injEq] at h
      subst h
      have h1 : containsSub (chars "<DarkModeToggle")
          (chars "<DarkModeToggle />" ++
            ((if w.isEmpty then chars "\n              " else w) ++ (linkTag ++ rest))) = true :=
        containsSub_append_left _ (by decide)
      have h2 := containsSub_append_right
        (pre ++ divTag ++ (if w.isEmpty then chars "\n              " else w)) h1
      simpa [List.append_assoc] using h2
    · simp at h

/-- A modifying run of `add_toggle_generic` leaves the done-marker in the
content. -/
theorem add_toggle_generic_contains {c : Chars}
    (h : (AddToggleFinal.add_toggle_generic c).2 = true) :
    containsSub (chars "<DarkModeToggle") (AddToggleFinal.add_toggle_generic c).1 = true := by
  unfold AddToggleFinal.add_toggle_generic at h ⊢
  cases h1 : AddToggleFinal.attempt1 c with
  | some nc => simp [h1, attempt1_contains h1]
  | none =>
    cases h2 : AddToggleFinal.attempt2 c with
    | some nc => simp [h1, h2, attempt2_contains h2]
    | none =>
      cases h3 : AddToggleFinal.attempt3 c with
      | some nc => simp [h1, h2, h3, attempt3_contains h3]
      | none => simp [h1, h2, h3] at h

/-- When the `manual_toggle_add.py` pattern matches, the patched content is
strictly longer than the original, hence different. -/
theorem patchContent_ne {c nc : Chars} (h : ManualToggleAdd.patchContent c = some nc) :
    nc ≠ c := by
  unfold ManualToggleAdd.patchContent at h
  cases hs : searchFrom ManualToggleAdd.matchLinkAt c with
  | none => rw [hs] at h; simp at h
  | some pg =>
    obtain ⟨pre, linkTag, rest⟩ := pg
    rw [hs] at h
    have hsplit : pre ++ linkTag ++ rest = c :=
      searchFrom_split (fun s g hg => matchLinkAt_split hg) hs
    simp only at h
    split at h
    · simp only [Option.some.injEq] at h
      subst h
      intro heq
      apply_fun List.length at heq
      rw [← hsplit] at heq
      simp [List.length_append] at heq
      exact absurd heq (by decide)
    · simp only [Option.some.injEq] at h
      subst h
      intro heq
      apply_fun List.length at heq
      rw [← hsplit] at heq
      simp [List.length_append] at heq
      have hp1 : 0 <
          (chars "<div className=\"flex items-center gap-4\">\n              <DarkModeToggle />\n              ").length :=
        by decide
      omega

/-! ## Generalised junction lemmas for occurrence counting

The toggle insertions splice text into the middle of the input; to count
occurrences of the done-marker in the result, the string is cut at junction
characters.  A cut is sound at a character that does not occur in the
pattern (`countOccur_append_sep`), or at the pattern's head character when
that character occurs nowhere else in the pattern
(`countOccur_append_head`) — for `<DarkModeToggle`, at whitespace,
newlines, `>`, `{`, `/`, or at `<`. -/

theorem prefixOf_append_sep {pat : Chars} {z : Char} (hz : z ∉ pat) :
    ∀ (a b : Chars), pat.isPrefixOf (a ++ z :: b) = pat.isPrefixOf a := by
  induction pat with
  | nil => intro a b; simp [List.isPrefixOf]
  | cons p ps ih =>
    intro a b
    have hp : p ≠ z := fun hc => hz (hc ▸ List.mem_cons_self p ps)
    have hps : z ∉ ps := fun hc => hz (List.mem_cons_of_mem p hc)
    cases a with
    | nil =>
      simp only [List.nil_append, List.isPrefixOf]
      have hb : (p == z) = false := beq_eq_false_iff_ne.mpr hp
      simp [hb]
    | cons c cs =>
      simp only [List.cons_append, List.isPrefixOf, List.append_eq]
      rw [ih hps cs b]

theorem countOccur_append_sep {pat : Chars} {z : Char} (hz : z ∉ pat) :
    ∀ (a b : Chars), countOccur pat (a ++ z :: b) =
      countOccur pat a + countOccur pat (z :: b) := by
  intro a b
  induction a with
  | nil => simp [countOccur]
  | cons c cs ih =>
    simp only [List.cons_append, countOccur, List.append_eq]
    have hx := prefixOf_append_sep hz (c :: cs) b
    simp only [List.cons_append] at hx
    simp only [hx, ih]
    have hy : countOccur pat (z :: b) =
        (if List.isPrefixOf pat (z :: b) = true then 1 else 0) + countOccur pat b := rfl
    omega

theorem countOccur_cons_sep {pat : Chars} {z : Char} (hz : z ∉ pat) (hne : pat ≠ [])
    (b : Chars) : countOccur pat (z :: b) = countOccur pat b := by
  cases pat with
  | nil => exact absurd rfl hne
  | cons p ps =>
    have hp : p ≠ z := fun hc => hz (hc ▸ List.mem_cons_self p ps)
    have hpb : (p == z) = false := beq_eq_false_iff_ne.mpr hp
    have hpre : (p :: ps).isPrefixOf (z :: b) = false := by
      simp [List.isPrefixOf, hpb]
    simp [countOccur, hpre]

/-- Cutting at the pattern's head character, when that character occurs
nowhere else in the pattern: an occurrence cannot straddle the junction. -/
theorem countOccur_append_head {h : Char} {t : Chars} (hh : h ∉ t) :
    ∀ (a b : Chars), countOccur (h :: t) (a ++ h :: b) =
      countOccur (h :: t) a + countOccur (h :: t) (h :: b) := by
  intro a b
  induction a with
  | nil => simp [countOccur]
  | cons c cs ih =>
    simp only [List.cons_append, countOccur, List.append_eq]
    have hx : (h :: t).isPrefixOf (c :: (cs ++ h :: b)) = (h :: t).isPrefixOf (c :: cs) := by
      simp only [List.isPrefixOf]
      rw [prefixOf_append_sep hh cs b]
    simp only [List.cons_append] at hx
    simp only [hx, ih]
    have hy : countOccur (h :: t) (h :: b) =
        (if List.isPrefixOf (h :: t) (h :: b) = true then 1 else 0) +
          countOccur (h :: t) b := rfl
    omega

/-- One split step: the right-hand part starts with the pattern's head
character or with a character not in the pattern. -/
theorem countOccur_split2 {h : Char} {t : Chars} (hh : h ∉ t) (U : Chars) {V : Chars}
    {z : Char} {V2 : Chars} (hV : V = z :: V2) (hz : z = h ∨ z ∉ (h :: t)) :
    countOccur (h :: t) (U ++ V) = countOccur (h :: t) U + countOccur (h :: t) V := by
  subst hV
  rcases hz with rfl | hz
  · exact countOccur_append_head hh U V2
  · exact countOccur_append_sep hz U V2

/-- A pattern starting with `h` cannot occur in text that avoids `h`. -/
theorem containsSub_false_of_ne_head {h : Char} {t : Chars} {w : Chars}
    (hw : ∀ c ∈ w, c ≠ h) : containsSub (h :: t) w = false := by
  induction w with
  | nil => simp [containsSub]
  | cons c cs ih =>
    have hc : c ≠ h := hw c (List.mem_cons_self c cs)
    have hb : (h == c) = false := beq_eq_false_iff_ne.mpr (Ne.symm hc)
    have hpre : (h :: t).isPrefixOf (c :: cs) = false := by
      simp [List.isPrefixOf, hb]
    simp [containsSub, hpre, ih (fun x hx => hw x (List.mem_cons_of_mem c hx))]

theorem containsSub_false_left {pat x y : Chars}
    (hxy : containsSub pat (x ++ y) = false) : containsSub pat x = false := by
  cases hx : containsSub pat x with
  | false => rfl
  | true =>
    have hc := containsSub_append_left y hx
    rw [hc] at hxy
    simp at hxy

theorem containsSub_false_right {pat x y : Chars}
    (hxy : containsSub pat (x ++ y) = false) : containsSub pat y = false := by
  cases hy : containsSub pat y with
  | false => rfl
  | true =>
    have hc := containsSub_append_right x hy
    rw [hc] at hxy
    simp at hxy

/-- Containment is antitone in the pattern: text containing a pattern
contains every prefix of it. -/
theorem containsSub_mono_pat {pat1 pat2 : Chars} (hp : pat1.isPrefixOf pat2 = true) :
    ∀ {s : Chars}, containsSub pat2 s = true → containsSub pat1 s = true := by
  intro s
  induction s with
  | nil =>
    intro hs
    simp only [containsSub, List.isEmpty_iff] at hs ⊢
    subst hs
    exact List.prefix_nil.mp ( List.isPrefixOf_iff_prefix.mp hp)
  | cons c cs ih =>
    intro hs
    simp only [containsSub, Bool.or_eq_true] at hs ⊢
    rcases hs with hs | hs
    · left
      have h1 := List.isPrefixOf_iff_prefix.mp hp
      have h2 := List.isPrefixOf_iff_prefix.mp hs
      exact List.isPrefixOf_iff_prefix.mpr (h1.trans h2)
    · right; exact ih hs

/-- Every character of the first component of a `splitsAsc` split satisfies
the class predicate. -/
theorem splitsAsc_pred (p : Char → Bool) :
    ∀ (s : Chars) (ab : Chars × Chars), ab ∈ splitsAsc p s → ∀ c ∈ ab.1, p c = true := by
  intro s
  induction s with
  | nil =>
    intro ab h c hc
    simp [splitsAsc] at h
    rw [h] at hc
    simp at hc
  | cons c0 cs ih =>
    intro ab h c hc
    simp only [splitsAsc] at h
    rcases List.mem_cons.mp h with h1 | h2
    · rw [h1] at hc; simp at hc
    · by_cases hp : p c0
      · simp [hp] at h2
        obtain ⟨a, b, hmem, heq⟩ := h2
        rw [← heq] at hc
        simp only at hc
        rcases List.mem_cons.mp hc with rfl | hc2
        · exact hp
        · exact ih (a, b) hmem c hc2
      · simp [hp] at h2

theorem splitsDesc_pred (p : Char → Bool) (s : Chars) (ab : Chars × Chars)
    (h : ab ∈ splitsDesc p s) : ∀ c ∈ ab.1, p c = true :=
  splitsAsc_pred p s ab (List.mem_reverse.mp h)

theorem splitsDescNE_pred (p : Char → Bool) (s : Chars) (ab : Chars × Chars)
    (h : ab ∈ splitsDescNE p s) : ∀ c ∈ ab.1, p c = true :=
  splitsAsc_pred p s ab (List.mem_of_mem_filter (List.mem_reverse.mp h))

theorem splitsDescNE_ne (p : Char → Bool) (s : Chars) (ab : Chars × Chars)
    (h : ab ∈ splitsDescNE p s) : ab.1 ≠ [] := by
  have := List.of_mem_filter (List.mem_reverse.mp h)
  simpa using this

/-- `strip()` of all-whitespace text is empty. -/
theorem stripWS_eq_nil {w : Chars} (hw : ∀ c ∈ w, isWS c = true) : stripWS w = [] := by
  unfold stripWS
  have h1 : w.dropWhile isWS = [] := by
    rw [List.dropWhile_eq_nil_iff]
    exact fun c hc => hw c hc
  rw [h1]
  simp

theorem checkLit_eq {l s : Chars} {u : Unit} (h : checkLit l s = some u) :
    l.isPrefixOf s = true := by
  unfold checkLit at h
  by_cases hp : l.isPrefixOf s
  · exact hp
  · simp [hp] at h

/-- A successful search contains a successful anchored match. -/
theorem searchFrom_matcher {G : Type} {m : Chars → Option G} :
    ∀ {s : Chars} {pre : Chars} {g : G}, searchFrom m s = some (pre, g) →
      ∃ s2, m s2 = some g := by
  intro s
  induction s with
  | nil =>
    intro pre g h
    simp only [searchFrom] at h
    cases hm : m [] with
    | some g0 =>
      rw [hm] at h
      simp only [Option.some.injEq, Prod.mk.injEq] at h
      exact ⟨[], h.2 ▸ hm⟩
    | none => rw [hm] at h; simp at h
  | cons c cs ih =>
    intro pre g h
    simp only [searchFrom] at h
    cases hm : m (c :: cs) with
    | some g0 =>
      rw [hm] at h
      simp only [Option.some.injEq, Prod.mk.injEq] at h
      exact ⟨c :: cs, h.2 ▸ hm⟩
    | none =>
      rw [hm] at h
      cases hrec : searchFrom m cs with
      | some pg =>
        obtain ⟨p1, g1⟩ := pg
        rw [hrec] at h
        simp only [Option.some.injEq, Prod.mk.injEq] at h
        obtain ⟨-, rfl⟩ := h
        exact ih hrec
      | none => rw [hrec] at h; simp at h

/-! ## Structural facts about the remaining anchored matchers -/

theorem matchP1At_facts {s : Chars} {g : Chars × Chars}
    (h : AddToggleComponent.matchP1At s = some g) :
    g.1 ++ g.2 = s ∧ g.1 ≠ [] ∧ ∀ c ∈ g.1, isWS c = true := by
  unfold AddToggleComponent.matchP1At at h
  obtain ⟨⟨g1, r1⟩, hm1, h⟩ := firstSome_eq_some h
  obtain ⟨u, hchk, hg⟩ := Option.map_eq_some'.mp h
  have e1 := splitsDescNE_append _ _ _ hm1
  have e2 := splitsDescNE_ne _ _ _ hm1
  have e3 := splitsDescNE_pred _ _ _ hm1
  simp only at e1 e2 e3
  subst hg
  exact ⟨e1, e2, e3⟩

theorem matchP2At_facts {s : Chars} {g : Chars × Chars × Chars}
    (h : AddToggleComponent.matchP2At s = some g) :
    g.1 ++ g.2.1 ++ chars "<NotificationBell" ++ g.2.2 = s ∧
      ∀ c ∈ g.2.1, isWS c = true := by
  unfold AddToggleComponent.matchP2At at h
  obtain ⟨r1, h1, h⟩ := Option.bind_eq_some.mp h
  obtain ⟨⟨d1, r2⟩, hm1, h⟩ := firstSome_eq_some h
  obtain ⟨r3, h3, h⟩ := Option.bind_eq_some.mp h
  obtain ⟨⟨d2, r4⟩, hm2, h⟩ := firstSome_eq_some h
  obtain ⟨r5, h5, h⟩ := Option.bind_eq_some.mp h
  obtain ⟨⟨d3, r6⟩, hm3, h⟩ := firstSome_eq_some h
  obtain ⟨r7, h7, h⟩ := Option.bind_eq_some.mp h
  obtain ⟨⟨d4, r8⟩, hm4, h⟩ := firstSome_eq_some h
  obtain ⟨r9, h9, h⟩ := Option.bind_eq_some.mp h
  obtain ⟨⟨d5, r10⟩, hm5, h⟩ := firstSome_eq_some h
  obtain ⟨r11, h11, h⟩ := Option.bind_eq_some.mp h
  obtain ⟨⟨g2, r12⟩, hm6, h⟩ := firstSome_eq_some h
  obtain ⟨r13, h13, hg⟩ := Option.map_eq_some'.mp h
  have e1 := splitsDesc_append _ _ _ hm1
  have e2 := splitsDesc_append _ _ _ hm2
  have e3 := splitsDesc_append _ _ _ hm3
  have e4 := splitsDesc_append _ _ _ hm4
  have e5 := splitsDesc_append _ _ _ hm5
  have e6 := splitsDesc_append _ _ _ hm6
  have ew := splitsDesc_pred _ _ _ hm6
  simp only at e1 e2 e3 e4 e5 e6 ew
  subst hg
  refine ⟨?_, ew⟩
  simp only [lit_eq h1, lit_eq h3, lit_eq h5, lit_eq h7, lit_eq h9, lit_eq h11,
    lit_eq h13, ← e1, ← e2, ← e3, ← e4, ← e5, ← e6]
  simp [List.append_assoc]

theorem matchP3At_facts {s : Chars} {g : Chars × Chars × Chars × Chars}
    (h : AddToggleComponent.matchP3At s = some g) :
    g.1 ++ g.2.1 ++ g.2.2.1 ++ g.2.2.2 = s ∧ ∃ b2, g.2.2.1 = '<' :: b2 := by
  unfold AddToggleComponent.matchP3At at h
  obtain ⟨r1, h1, h⟩ := Option.bind_eq_some.mp h
  obtain ⟨⟨d1, r2⟩, hm1, h⟩ := firstSome_eq_some h
  obtain ⟨r3, h3, h⟩ := Option.bind_eq_some.mp h
  obtain ⟨⟨d2, r4⟩, hm2, h⟩ := firstSome_eq_some h
  obtain ⟨r5, h5, h⟩ := Option.bind_eq_some.mp h
  obtain ⟨⟨d3, r6⟩, hm3, h⟩ := firstSome_eq_some h
  obtain ⟨r7, h7, h⟩ := Option.bind_eq_some.mp h
  obtain ⟨⟨d4, r8⟩, hm4, h⟩ := firstSome_eq_some h
  obtain ⟨r9, h9, h⟩ := Option.bind_eq_some.mp h
  obtain ⟨⟨d5, r10⟩, hm5, h⟩ := firstSome_eq_some h
  obtain ⟨r11, h11, h⟩ := Option.bind_eq_some.mp h
  obtain ⟨⟨g2, r12⟩, hm6, h⟩ := firstSome_eq_some h
  obtain ⟨r13, h13, h⟩ := Option.bind_eq_some.mp h
  obtain ⟨⟨d6, r14⟩, hm7, h⟩ := firstSome_eq_some h
  obtain ⟨r15, h15, hg⟩ := Option.map_eq_some'.mp h
  have e1 := splitsDesc_append _ _ _ hm1
  have e2 := splitsDesc_append _ _ _ hm2
  have e3 := splitsDesc_append _ _ _ hm3
  have e4 := splitsDesc_append _ _ _ hm4
  have e5 := splitsDesc_append _ _ _ hm5
  have e6 := splitsAsc_append _ _ _ hm6
  have e7 := splitsAsc_append _ _ _ hm7
  simp only at e1 e2 e3 e4 e5 e6 e7
  subst hg
  refine ⟨?_, ⟨chars "button" ++ d6 ++ chars "onClick={handleLogout}", ?_⟩⟩
  · simp only [lit_eq h1, lit_eq h3, lit_eq h5, lit_eq h7, lit_eq h9, lit_eq h11,
      lit_eq h13, lit_eq h15, ← e1, ← e2, ← e3, ← e4, ← e5, ← e6, ← e7]
    simp [List.append_assoc]
  · simp [show chars "<button" = '<' :: chars "button" from rfl, List.append_assoc]

theorem matchP4At_split {s : Chars} {g : Chars × Chars}
    (h : AddToggleComponent.matchP4At s = some g) : g.1 ++ g.2 = s := by
  unfold AddToggleComponent.matchP4At at h
  obtain ⟨r1, h1, h⟩ := Option.bind_eq_some.mp h
  obtain ⟨⟨w, r2⟩, hm1, h⟩ := firstSome_eq_some h
  obtain ⟨r3, h3, h⟩ := Option.bind_eq_some.mp h
  obtain ⟨⟨d, r4⟩, hm2, h⟩ := firstSome_eq_some h
  obtain ⟨r5, h5, hg⟩ := Option.map_eq_some'.mp h
  have e1 := splitsDesc_append _ _ _ hm1
  have e2 := splitsDesc_append _ _ _ hm2
  simp only at e1 e2
  subst hg
  simp only [lit_eq h1, lit_eq h3, lit_eq h5, ← e1, ← e2]
  simp [List.append_assoc]

theorem notifTailWithG2_facts {r1 : Chars} {gr : Chars × Chars}
    (h : AddDarkMode.notifTailWithG2 r1 = some gr) :
    gr.1 ++ gr.2 = r1 ∧ ∃ r2, gr.2 = '<' :: r2 := by
  unfold AddDarkMode.notifTailWithG2 at h
  obtain ⟨a1, h1, h⟩ := Option.bind_eq_some.mp h
  obtain ⟨⟨d1, a2⟩, hm1, h⟩ := firstSome_eq_some h
  obtain ⟨a3, h3, h⟩ := Option.bind_eq_some.mp h
  obtain ⟨⟨d2, a4⟩, hm2, h⟩ := firstSome_eq_some h
  obtain ⟨a5, h5, h⟩ := Option.bind_eq_some.mp h
  obtain ⟨⟨w, a6⟩, hm3, h⟩ := firstSome_eq_some h
  obtain ⟨u, hchk, hg⟩ := Option.map_eq_some'.mp h
  have e1 := splitsAsc_append _ _ _ hm1
  have e2 := splitsAsc_append _ _ _ hm2
  have e3 := splitsDesc_append _ _ _ hm3
  simp only at e1 e2 e3
  obtain ⟨t, ht⟩ := List.isPrefixOf_iff_prefix.mp (checkLit_eq hchk)
  subst hg
  refine ⟨?_, ⟨chars "NotificationBell" ++ t, ?_⟩⟩
  · simp only [lit_eq h1, lit_eq h3, lit_eq h5, ← e1, ← e2, ← e3]
    simp [List.append_assoc]
  · rw [← ht]
    simp [show chars "<NotificationBell" = '<' :: chars "NotificationBell" from rfl]

theorem notifTail_facts {r1 : Chars} {gr : Chars × Chars}
    (h : AddDarkMode.notifTail r1 = some gr) :
    gr.1 ++ gr.2 = r1 ∧ ∃ r2, gr.2 = '<' :: r2 := by
  unfold AddDarkMode.notifTail at h
  cases hw : AddDarkMode.notifTailWithG2 r1 with
  | some r =>
    rw [hw] at h
    simp only [Option.some.injEq] at h
    subst h
    exact notifTailWithG2_facts hw
  | none =>
    rw [hw] at h
    obtain ⟨u, hchk, hg⟩ := Option.map_eq_some'.mp h
    obtain ⟨t, ht⟩ := List.isPrefixOf_iff_prefix.mp (checkLit_eq hchk)
    subst hg
    refine ⟨by simp, ⟨chars "NotificationBell" ++ t, ?_⟩⟩
    rw [← ht]
    simp [show chars "<NotificationBell" = '<' :: chars "NotificationBell" from rfl]

theorem matchNotifAt_facts {s : Chars} {g : Chars × Chars × Chars}
    (h : AddDarkMode.matchNotifAt s = some g) :
    g.1 ++ g.2.1 ++ g.2.2 = s ∧ (∀ c ∈ g.1, isWS c = true) ∧
      ∃ r2, g.2.2 = '<' :: r2 := by
  unfold AddDarkMode.matchNotifAt at h
  obtain ⟨⟨g1, r1⟩, hm1, h⟩ := firstSome_eq_some h
  obtain ⟨gr, hnt, hg⟩ := Option.map_eq_some'.mp h
  have e1 := splitsDesc_append _ _ _ hm1
  have ep := splitsDesc_pred _ _ _ hm1
  obtain ⟨hsp, hhead⟩ := notifTail_facts hnt
  simp only at e1 ep
  subst hg
  refine ⟨?_, ep, hhead⟩
  rw [List.append_assoc, hsp, e1]

theorem matchLogoutBtnAt_head {s : Chars} {g : Chars × Chars}
    (h : AddDarkMode.matchLogoutBtnAt s = some g) : ∃ b2, g.1 = '<' :: b2 := by
  unfold AddDarkMode.matchLogoutBtnAt at h
  obtain ⟨r1, h1, h⟩ := Option.bind_eq_some.mp h
  obtain ⟨⟨d, r2⟩, hm1, h⟩ := firstSome_eq_some h
  obtain ⟨r3, h3, hg⟩ := Option.map_eq_some'.mp h
  subst hg
  exact ⟨chars "button" ++ d ++ chars "onClick={handleLogout}", by
    simp [show chars "<button" = '<' :: chars "button" from rfl, List.append_assoc]⟩

theorem matchContainerAt_facts {btn s : Chars} {g : Chars × Chars × Chars}
    (h : AddDarkMode.matchContainerAt btn s = some g) :
    g.1 ++ g.2.1 ++ btn ++ g.2.2 = s ∧ ∀ c ∈ g.2.1, c ≠ '<' := by
  unfold AddDarkMode.matchContainerAt at h
  obtain ⟨r1, h1, h⟩ := Option.bind_eq_some.mp h
  obtain ⟨⟨d1, r2⟩, hm1, h⟩ := firstSome_eq_some h
  obtain ⟨r3, h3, h⟩ := Option.bind_eq_some.mp h
  obtain ⟨⟨d2, r4⟩, hm2, h⟩ := firstSome_eq_some h
  obtain ⟨r5, h5, h⟩ := Option.bind_eq_some.mp h
  obtain ⟨⟨d3, r6⟩, hm3, h⟩ := firstSome_eq_some h
  obtain ⟨r7, h7, h⟩ := Option.bind_eq_some.mp h
  obtain ⟨⟨d4, r8⟩, hm4, h⟩ := firstSome_eq_some h
  obtain ⟨r9, h9, h⟩ := Option.bind_eq_some.mp h
  obtain ⟨⟨g2, r10⟩, hm5, h⟩ := firstSome_eq_some h
  obtain ⟨r11, h11, hg⟩ := Option.map_eq_some'.mp h
  have e1 := splitsAsc_append _ _ _ hm1
  have e2 := splitsDesc_append _ _ _ hm2
  have e3 := splitsDesc_append _ _ _ hm3
  have e4 := splitsDesc_append _ _ _ hm4
  have e5 := splitsAsc_append _ _ _ hm5
  have ep := splitsAsc_pred _ _ _ hm5
  simp only at e1 e2 e3 e4 e5 ep
  subst hg
  refine ⟨?_, fun c hc => of_decide_eq_true (ep c hc)⟩
  simp only [lit_eq h1, lit_eq h3, lit_eq h5, lit_eq h7, lit_eq h9, lit_eq h11,
    ← e1, ← e2, ← e3, ← e4, ← e5]
  simp [List.append_assoc]

/-- Whitespace characters do not occur in the done-marker. -/
theorem ws_notin_marker {z : Char} (hz : isWS z = true) :
    z ∉ ('<' :: chars "DarkModeToggle") := by
  intro hmem
  have hall : ∀ c ∈ ('<' :: chars "DarkModeToggle"), isWS c = false := by decide
  rw [hall z hmem] at hz
  simp at hz

/-- All-whitespace text avoids the marker's head character `<`. -/
theorem ws_all_ne_lt {w : Chars} (hw : ∀ c ∈ w, isWS c = true) :
    ∀ c ∈ w, c ≠ '<' := by
  intro c hc heq
  have hcw := hw c hc
  rw [heq] at hcw
  exact absurd hcw (by decide)

/-- Inserting a block containing exactly one occurrence of the pattern into
marker-free surroundings yields exactly one occurrence, provided the
junctions cannot be straddled: the block starts with the pattern's head
character or with a character outside the pattern, and on the right either
the suffix starts with such a character or the block ends with a character
outside the pattern. -/
theorem countOccur_insertion {h : Char} {t : Chars} (hh : h ∉ t)
    (U W ins : Chars)
    (hU : countOccur (h :: t) U = 0) (hW : countOccur (h :: t) W = 0)
    (hins : countOccur (h :: t) ins = 1)
    (hinsHead : ∃ z i2, ins = z :: i2 ∧ (z = h ∨ z ∉ (h :: t)))
    (hWside : W = [] ∨ (∃ z w2, W = z :: w2 ∧ (z = h ∨ z ∉ (h :: t))) ∨
      (∃ i2 z, ins = i2 ++ [z] ∧ z ∉ (h :: t))) :
    countOccur (h :: t) (U ++ ins ++ W) = 1 := by
  obtain ⟨z, i2, hi, hz⟩ := hinsHead
  have e1 : countOccur (h :: t) (U ++ ins) =
      countOccur (h :: t) U + countOccur (h :: t) ins :=
    countOccur_split2 hh U hi hz
  rcases hWside with rfl | ⟨z2, w2, hw, hz2⟩ | ⟨i3, z3, hi3, hz3⟩
  · rw [List.append_nil, e1, hU, hins]
  · have e2 : countOccur (h :: t) ((U ++ ins) ++ W) =
        countOccur (h :: t) (U ++ ins) + countOccur (h :: t) W :=
      countOccur_split2 hh (U ++ ins) hw hz2
    rw [show U ++ ins ++ W = (U ++ ins) ++ W from rfl, e2, e1, hU, hW, hins]
  · have hi3count : countOccur (h :: t) i3 = 1 := by
      have e3 : countOccur (h :: t) (i3 ++ [z3]) = countOccur (h :: t) i3 := by
        rw [countOccur_append_sep hz3 i3 [],
          countOccur_cons_sep hz3 (by simp) []]
        simp [countOccur]
      rw [hi3, e3] at hins
      exact hins
    cases hi3shape : i3 with
    | nil =>
      rw [hi3shape] at hi3count
      simp [countOccur] at hi3count
    | cons a i3' =>
      have ha : a = z := by
        rw [hi3shape] at hi3
        rw [hi3] at hi
        simpa using congrArg (fun l => l.headI) hi
      subst ha
      have hshape : U ++ ins ++ W = (U ++ i3) ++ z3 :: W := by
        rw [hi3]
        simp [List.append_assoc]
      rw [hshape, countOccur_append_sep hz3,
        countOccur_cons_sep hz3 (by simp), hW]
      have e4 : countOccur (h :: t) (U ++ i3) =
          countOccur (h :: t) U + countOccur (h :: t) i3 :=
        countOccur_split2 hh U hi3shape hz
      rw [e4, hU, hi3count]

/-- Counting the marker across the comment-plus-toggle block shared by
standard-page pattern 1 and the NotificationBell branch of
`add_dark_mode_toggle`: a marker-free group, the comment line, the group
again, and a tail holding exactly one occurrence total one occurrence. -/
theorem count_block_aux {g1 tail : Chars}
    (hg1 : countOccur ('<' :: chars "DarkModeToggle") g1 = 0)
    (htail : countOccur ('<' :: chars "DarkModeToggle") tail = 1)
    (hthead : ∃ t2, tail = '<' :: t2) :
    countOccur ('<' :: chars "DarkModeToggle")
      (g1 ++ chars "{/* Dark Mode Toggle */}\n" ++ g1 ++ tail) = 1 := by
  have hh : '<' ∉ chars "DarkModeToggle" := by decide
  obtain ⟨t2, ht⟩ := hthead
  rw [show g1 ++ chars "{/* Dark Mode Toggle */}\n" ++ g1 ++ tail
      = g1 ++ (chars "{/* Dark Mode Toggle */}\n" ++ (g1 ++ tail)) from by
    simp [List.append_assoc]]
  rw [countOccur_split2 hh g1
    (show chars "{/* Dark Mode Toggle */}\n" ++ (g1 ++ tail)
        = '{' :: (chars "/* Dark Mode Toggle */\x7d\n" ++ (g1 ++ tail)) from rfl)
    (Or.inr (by decide))]
  rw [hg1]
  rw [show chars "{/* Dark Mode Toggle */}\n" ++ (g1 ++ tail)
      = chars "{/* Dark Mode Toggle */}" ++ '\n' :: (g1 ++ tail) from rfl]
  rw [countOccur_append_sep
    (show ('\n' : Char) ∉ ('<' :: chars "DarkModeToggle") from by decide)]
  rw [countOccur_cons_sep
    (show ('\n' : Char) ∉ ('<' :: chars "DarkModeToggle") from by decide) (by simp)]
  rw [show countOccur ('<' :: chars "DarkModeToggle")
    (chars "{/* Dark Mode Toggle */}") = 0 from by decide]
  rw [countOccur_split2 hh g1 ht (Or.inl rfl)]
  rw [hg1, htail]

/-! ## Single-insertion facts for every toggle-insertion variant -/

/-- Auth-page variant: anchored insertion of `toggle_html` directly after
the matched anchor, preserving all other bytes, with exactly one occurrence
of the marker in the output. -/
theorem toggle_part_auth :
    ∀ (c pre : Chars) (m : AddToggleComponent.MAuth),
      containsSub (chars "<DarkModeToggle") c = false →
      searchFrom AddToggleComponent.matchAuthAt c = some (pre, m) →
      AddToggleComponent.add_toggle_to_auth_page c =
          (pre ++ m.consumed ++ AddToggleComponent.toggle_html ++ m.rest, true) ∧
        pre ++ m.consumed ++ m.rest = c ∧
        countOccur (chars "<DarkModeToggle")
          (pre ++ m.consumed ++ AddToggleComponent.toggle_html ++ m.rest) = 1 := by
  intro c pre m hmark hsearch
  have hsplit : pre ++ m.consumed ++ m.rest = c :=
    searchFrom_split (fun s g hg => matchAuthAt_split hg) hsearch
  refine ⟨?_, hsplit, ?_⟩
  · unfold AddToggleComponent.add_toggle_to_auth_page
    rw [hsearch]
  · have hnl : '\n' ∉ chars "<DarkModeToggle" := by decide
    have hne : chars "<DarkModeToggle" ≠ [] := by decide
    have htog : AddToggleComponent.toggle_html =
        '\n' :: (chars "      {/* Dark Mode Toggle */}\n      <div className=\"absolute top-4 right-4\">\n        <DarkModeToggle />\n      </div>" ++ ['\n']) := by
      decide
    have hA : containsSub (chars "<DarkModeToggle") (pre ++ m.consumed) = false := by
      cases hA : containsSub (chars "<DarkModeToggle") (pre ++ m.consumed) with
      | false => rfl
      | true =>
        have hc := containsSub_append_left m.rest hA
        rw [hsplit] at hc
        rw [hc] at hmark
        simp at hmark
    have hB : containsSub (chars "<DarkModeToggle") m.rest = false := by
      cases hB : containsSub (chars "<DarkModeToggle") m.rest with
      | false => rfl
      | true =>
        have hc := containsSub_append_right (pre ++ m.consumed) hB
        rw [hsplit] at hc
        rw [hc] at hmark
        simp at hmark
    rw [htog]
    rw [countOccur_splice hnl hne (pre ++ m.consumed) _ m.rest]
    rw [countOccur_eq_zero hA, countOccur_eq_zero hB]
    have hmid : countOccur (chars "<DarkModeToggle")
        ('\n' :: (chars "      {/* Dark Mode Toggle */}\n      <div className=\"absolute top-4 right-4\">\n        <DarkModeToggle />\n      </div>" ++ ['\n'])) = 1 := by
      decide
    rw [hmid]

/-- Standard-page pattern 1 (indent before a Notification Bell comment):
comment line, toggle line and blank line are inserted before the matched
whitespace run; all input bytes are preserved and the output has exactly
one occurrence of the marker. -/
theorem toggle_part_p1 :
    ∀ (c pre g1 r1 : Chars),
      containsSub (chars "<DarkModeToggle") c = false →
      searchFrom AddToggleComponent.matchP1At c = some (pre, (g1, r1)) →
      AddToggleComponent.add_toggle_to_standard_page c =
          (pre ++ (g1 ++ chars "{/* Dark Mode Toggle */}\n" ++ g1 ++
             chars "<DarkModeToggle />\n\n" ++ g1) ++ g1 ++ r1, true) ∧
        pre ++ g1 ++ r1 = c ∧
        countOccur (chars "<DarkModeToggle")
          (pre ++ (g1 ++ chars "{/* Dark Mode Toggle */}\n" ++ g1 ++
             chars "<DarkModeToggle />\n\n" ++ g1) ++ g1 ++ r1) = 1 := by
  intro c pre g1 r1 hmark hs
  have hh : '<' ∉ chars "DarkModeToggle" := by decide
  have hsplice : pre ++ g1 ++ r1 = c :=
    searchFrom_split (fun s g hg => (matchP1At_facts hg).1) hs
  have hout : AddToggleComponent.add_toggle_to_standard_page c =
      (pre ++ (g1 ++ chars "{/* Dark Mode Toggle */}\n" ++ g1 ++
         chars "<DarkModeToggle />\n\n" ++ g1) ++ g1 ++ r1, true) := by
    unfold AddToggleComponent.add_toggle_to_standard_page
    rw [hs]
  refine ⟨hout, hsplice, ?_⟩
  obtain ⟨s2, hm2⟩ := searchFrom_matcher hs
  have hfacts := matchP1At_facts hm2
  have hg1ne : g1 ≠ [] := hfacts.2.1
  have hg1ws : ∀ ch ∈ g1, isWS ch = true := hfacts.2.2
  obtain ⟨z, g1', rfl⟩ : ∃ z g1', g1 = z :: g1' := by
    cases g1 with
    | nil => exact absurd rfl hg1ne
    | cons a b => exact ⟨a, b, rfl⟩
  have hzws : isWS z = true := hg1ws z (List.mem_cons_self z g1')
  have hzne : z ∉ ('<' :: chars "DarkModeToggle") := ws_notin_marker hzws
  have hg1z : countOccur ('<' :: chars "DarkModeToggle") (z :: g1') = 0 :=
    countOccur_eq_zero (containsSub_false_of_ne_head (ws_all_ne_lt hg1ws))
  have hcfree : containsSub (chars "<DarkModeToggle")
      (pre ++ ((z :: g1') ++ r1)) = false := by
    have hx := hmark
    rw [← hsplice] at hx
    simpa [List.append_assoc] using hx
  have hU0 : countOccur ('<' :: chars "DarkModeToggle") pre = 0 :=
    countOccur_eq_zero (containsSub_false_left hcfree)
  have hW0 : countOccur ('<' :: chars "DarkModeToggle") ((z :: g1') ++ r1) = 0 :=
    countOccur_eq_zero (containsSub_false_right hcfree)
  have hins : countOccur ('<' :: chars "DarkModeToggle")
      ((z :: g1') ++ chars "{/* Dark Mode Toggle */}\n" ++ (z :: g1') ++
        chars "<DarkModeToggle />\n\n" ++ (z :: g1')) = 1 := by
    have htail : countOccur ('<' :: chars "DarkModeToggle")
        (chars "<DarkModeToggle />\n\n" ++ (z :: g1')) = 1 := by
      rw [show chars "<DarkModeToggle />\n\n" ++ (z :: g1')
          = chars "<DarkModeToggle />\n" ++ '\n' :: (z :: g1') from rfl]
      rw [countOccur_append_sep
        (show ('\n' : Char) ∉ ('<' :: chars "DarkModeToggle") from by decide)]
      rw [countOccur_cons_sep
        (show ('\n' : Char) ∉ ('<' :: chars "DarkModeToggle") from by decide) (by simp)]
      rw [hg1z]
      rw [show countOccur ('<' :: chars "DarkModeToggle")
        (chars "<DarkModeToggle />\n") = 1 from by decide]
    rw [show (z :: g1') ++ chars "{/* Dark Mode Toggle */}\n" ++ (z :: g1') ++
        chars "<DarkModeToggle />\n\n" ++ (z :: g1')
        = (z :: g1') ++ chars "{/* Dark Mode Toggle */}\n" ++ (z :: g1') ++
          (chars "<DarkModeToggle />\n\n" ++ (z :: g1')) from by
      simp [List.append_assoc]]
    exact count_block_aux hg1z htail ⟨chars "DarkModeToggle />\n\n" ++ (z :: g1'), rfl⟩
  rw [show chars "<DarkModeToggle" = '<' :: chars "DarkModeToggle" from rfl]
  rw [show pre ++ ((z :: g1') ++ chars "{/* Dark Mode Toggle */}\n" ++ (z :: g1') ++
        chars "<DarkModeToggle />\n\n" ++ (z :: g1')) ++ (z :: g1') ++ r1
      = pre ++ ((z :: g1') ++ chars "{/* Dark Mode Toggle */}\n" ++ (z :: g1') ++
        chars "<DarkModeToggle />\n\n" ++ (z :: g1')) ++ ((z :: g1') ++ r1) from by
    simp [List.append_assoc]]
  exact countOccur_insertion hh pre ((z :: g1') ++ r1) _ hU0 hW0 hins
    ⟨z, g1' ++ chars "{/* Dark Mode Toggle */}\n" ++ (z :: g1') ++
      chars "<DarkModeToggle />\n\n" ++ (z :: g1'), rfl, Or.inr hzne⟩
    (Or.inr (Or.inl ⟨z, g1' ++ r1, rfl, Or.inr hzne⟩))

/-- Standard-page pattern 2 (div with flex and space-x classes directly
followed by NotificationBell): the toggle is spliced between the div tag
and the bell, reusing the matched whitespace as indent; all input bytes are
preserved and the output has exactly one occurrence of the marker. -/
theorem toggle_part_p2 :
    ∀ (c pre divTag g2 rest : Chars),
      containsSub (chars "<DarkModeToggle") c = false →
      searchFrom AddToggleComponent.matchP1At c = none →
      searchFrom AddToggleComponent.matchP2At c = some (pre, (divTag, g2, rest)) →
      AddToggleComponent.add_toggle_to_standard_page c =
          (pre ++ (divTag ++ g2 ++ chars "<DarkModeToggle />" ++ g2 ++
             chars "<NotificationBell") ++ rest, true) ∧
        pre ++ (divTag ++ g2 ++ chars "<NotificationBell") ++ rest = c ∧
        countOccur (chars "<DarkModeToggle")
          (pre ++ (divTag ++ g2 ++ chars "<DarkModeToggle />" ++ g2 ++
             chars "<NotificationBell") ++ rest) = 1 := by
  intro c pre divTag g2 rest hmark h1 hs
  have hh : '<' ∉ chars "DarkModeToggle" := by decide
  have hsplice : pre ++ (divTag ++ g2 ++ chars "<NotificationBell") ++ rest = c :=
    searchFrom_split (fun s g hg => (matchP2At_facts hg).1) hs
  obtain ⟨s2, hm2⟩ := searchFrom_matcher hs
  have hg2ws : ∀ ch ∈ g2, isWS ch = true := (matchP2At_facts hm2).2
  have hstrip : stripWS g2 = [] := stripWS_eq_nil hg2ws
  have hout : AddToggleComponent.add_toggle_to_standard_page c =
      (pre ++ (divTag ++ g2 ++ chars "<DarkModeToggle />" ++ g2 ++
         chars "<NotificationBell") ++ rest, true) := by
    unfold AddToggleComponent.add_toggle_to_standard_page
    rw [h1, hs]
    simp [hstrip]
  refine ⟨hout, hsplice, ?_⟩
  have hg2z : countOccur ('<' :: chars "DarkModeToggle") g2 = 0 :=
    countOccur_eq_zero (containsSub_false_of_ne_head (ws_all_ne_lt hg2ws))
  have hcfree : containsSub (chars "<DarkModeToggle")
      ((pre ++ (divTag ++ g2)) ++ (chars "<NotificationBell" ++ rest)) = false := by
    have hx := hmark
    rw [← hsplice] at hx
    simpa [List.append_assoc] using hx
  have hU0 : countOccur ('<' :: chars "DarkModeToggle") (pre ++ (divTag ++ g2)) = 0 :=
    countOccur_eq_zero (containsSub_false_left hcfree)
  have hW0 : countOccur ('<' :: chars "DarkModeToggle")
      (chars "<NotificationBell" ++ rest) = 0 :=
    countOccur_eq_zero (containsSub_false_right hcfree)
  have hins : countOccur ('<' :: chars "DarkModeToggle")
      (chars "<DarkModeToggle />" ++ g2) = 1 := by
    rw [show chars "<DarkModeToggle />" ++ g2
        = chars "<DarkModeToggle /" ++ '>' :: g2 from rfl]
    rw [countOccur_append_sep
      (show ('>' : Char) ∉ ('<' :: chars "DarkModeToggle") from by decide)]
    rw [countOccur_cons_sep
      (show ('>' : Char) ∉ ('<' :: chars "DarkModeToggle") from by decide) (by simp)]
    rw [hg2z]
    rw [show countOccur ('<' :: chars "DarkModeToggle")
      (chars "<DarkModeToggle /") = 1 from by decide]
  rw [show chars "<DarkModeToggle" = '<' :: chars "DarkModeToggle" from rfl]
  rw [show pre ++ (divTag ++ g2 ++ chars "<DarkModeToggle />" ++ g2 ++
        chars "<NotificationBell") ++ rest
      = (pre ++ (divTag ++ g2)) ++ (chars "<DarkModeToggle />" ++ g2) ++
        (chars "<NotificationBell" ++ rest) from by
    simp [List.append_assoc]]
  exact countOccur_insertion hh (pre ++ (divTag ++ g2))
    (chars "<NotificationBell" ++ rest) _ hU0 hW0 hins
    ⟨'<', chars "DarkModeToggle />" ++ g2, rfl, Or.inl rfl⟩
    (Or.inr (Or.inl ⟨'<', chars "NotificationBell" ++ rest, rfl, Or.inl rfl⟩))

/-- Standard-page pattern 3 (flex items-center div followed by the logout
button): the toggle is spliced between the matched whitespace and the
button tag; all input bytes are preserved and the output has exactly one
occurrence of the marker. -/
theorem toggle_part_p3 :
    ∀ (c pre divTag g2 btn rest : Chars),
      containsSub (chars "<DarkModeToggle") c = false →
      searchFrom AddToggleComponent.matchP1At c = none →
      searchFrom AddToggleComponent.matchP2At c = none →
      searchFrom AddToggleComponent.matchP3At c = some (pre, (divTag, g2, btn, rest)) →
      AddToggleComponent.add_toggle_to_standard_page c =
          (pre ++ (divTag ++ g2 ++ chars "<DarkModeToggle />" ++
             (if g2.contains '\n' then chars "\n              " else chars " ") ++
             btn) ++ rest, true) ∧
        pre ++ (divTag ++ g2 ++ btn) ++ rest = c ∧
        countOccur (chars "<DarkModeToggle")
          (pre ++ (divTag ++ g2 ++ chars "<DarkModeToggle />" ++
             (if g2.contains '\n' then chars "\n              " else chars " ") ++
             btn) ++ rest) = 1 := by
  intro c pre divTag g2 btn rest hmark h1 h2 hs
  have hh : '<' ∉ chars "DarkModeToggle" := by decide
  have hsplice : pre ++ (divTag ++ g2 ++ btn) ++ rest = c :=
    searchFrom_split (fun s g hg => (matchP3At_facts hg).1) hs
  obtain ⟨s2, hm2⟩ := searchFrom_matcher hs
  obtain ⟨b2, hbtn⟩ := (matchP3At_facts hm2).2
  have hbtn2 : btn = '<' :: b2 := hbtn
  have hout : AddToggleComponent.add_toggle_to_standard_page c =
      (pre ++ (divTag ++ g2 ++ chars "<DarkModeToggle />" ++
         (if g2.contains '\n' then chars "\n              " else chars " ") ++
         btn) ++ rest, true) := by
    unfold AddToggleComponent.add_toggle_to_standard_page
    rw [h1, h2, hs]
  refine ⟨hout, hsplice, ?_⟩
  have hcfree : containsSub (chars "<DarkModeToggle")
      ((pre ++ (divTag ++ g2)) ++ (btn ++ rest)) = false := by
    have hx := hmark
    rw [← hsplice] at hx
    simpa [List.append_assoc] using hx
  have hU0 : countOccur ('<' :: chars "DarkModeToggle") (pre ++ (divTag ++ g2)) = 0 :=
    countOccur_eq_zero (containsSub_false_left hcfree)
  have hW0 : countOccur ('<' :: chars "DarkModeToggle") (btn ++ rest) = 0 :=
    countOccur_eq_zero (containsSub_false_right hcfree)
  rw [show chars "<DarkModeToggle" = '<' :: chars "DarkModeToggle" from rfl]
  cases hnl : g2.contains '\n' with
  | true =>
    rw [if_pos rfl]
    rw [show pre ++ (divTag ++ g2 ++ chars "<DarkModeToggle />" ++
          chars "\n              " ++ btn) ++ rest
        = (pre ++ (divTag ++ g2)) ++
          (chars "<DarkModeToggle />" ++ chars "\n              ") ++
          (btn ++ rest) from by
      simp [List.append_assoc]]
    exact countOccur_insertion hh (pre ++ (divTag ++ g2)) (btn ++ rest) _ hU0 hW0
      (by decide)
      ⟨'<', chars "DarkModeToggle />" ++ chars "\n              ", rfl, Or.inl rfl⟩
      (Or.inr (Or.inl ⟨'<', b2 ++ rest, by rw [hbtn2, List.cons_append], Or.inl rfl⟩))
  | false =>
    rw [if_neg (by decide)]
    rw [show pre ++ (divTag ++ g2 ++ chars "<DarkModeToggle />" ++
          chars " " ++ btn) ++ rest
        = (pre ++ (divTag ++ g2)) ++
          (chars "<DarkModeToggle />" ++ chars " ") ++
          (btn ++ rest) from by
      simp [List.append_assoc]]
    exact countOccur_insertion hh (pre ++ (divTag ++ g2)) (btn ++ rest) _ hU0 hW0
      (by decide)
      ⟨'<', chars "DarkModeToggle />" ++ chars " ", rfl, Or.inl rfl⟩
      (Or.inr (Or.inl ⟨'<', b2 ++ rest, by rw [hbtn2, List.cons_append], Or.inl rfl⟩))

/-- Standard-page pattern 4 (Actions comment followed by a div tag): the
toggle line is appended right after the matched anchor; all input bytes are
preserved and the output has exactly one occurrence of the marker. -/
theorem toggle_part_p4 :
    ∀ (c pre consumed rest : Chars),
      containsSub (chars "<DarkModeToggle") c = false →
      searchFrom AddToggleComponent.matchP1At c = none →
      searchFrom AddToggleComponent.matchP2At c = none →
      searchFrom AddToggleComponent.matchP3At c = none →
      searchFrom AddToggleComponent.matchP4At c = some (pre, (consumed, rest)) →
      AddToggleComponent.add_toggle_to_standard_page c =
          (pre ++ consumed ++
             chars "\n              <DarkModeToggle />\n              " ++ rest,
           true) ∧
        pre ++ consumed ++ rest = c ∧
        countOccur (chars "<DarkModeToggle")
          (pre ++ consumed ++
            chars "\n              <DarkModeToggle />\n              " ++ rest) = 1 := by
  intro c pre consumed rest hmark h1 h2 h3 hs
  have hh : '<' ∉ chars "DarkModeToggle" := by decide
  have hsplice : pre ++ consumed ++ rest = c :=
    searchFrom_split (fun s g hg => matchP4At_split hg) hs
  have hout : AddToggleComponent.add_toggle_to_standard_page c =
      (pre ++ consumed ++
         chars "\n              <DarkModeToggle />\n              " ++ rest, true) := by
    unfold AddToggleComponent.add_toggle_to_standard_page
    rw [h1, h2, h3, hs]
  refine ⟨hout, hsplice, ?_⟩
  have hcfree : containsSub (chars "<DarkModeToggle")
      ((pre ++ consumed) ++ rest) = false := by
    rw [hsplice]
    exact hmark
  have hU0 : countOccur ('<' :: chars "DarkModeToggle") (pre ++ consumed) = 0 :=
    countOccur_eq_zero (containsSub_false_left hcfree)
  have hW0 : countOccur ('<' :: chars "DarkModeToggle") rest = 0 :=
    countOccur_eq_zero (containsSub_false_right hcfree)
  rw [show chars "<DarkModeToggle" = '<' :: chars "DarkModeToggle" from rfl]
  exact countOccur_insertion hh (pre ++ consumed) rest _ hU0 hW0
    (by decide)
    ⟨'\n', chars "              <DarkModeToggle />\n              ", rfl,
      Or.inr (by decide)⟩
    (Or.inr (Or.inr ⟨chars "\n              <DarkModeToggle />\n             ", ' ',
      rfl, by decide⟩))

/-- NotificationBell branch of `add_dark_mode_toggle`: comment and toggle
lines are inserted after the bell anchor groups; all input bytes are
preserved and the output has exactly one occurrence of the marker. -/
theorem toggle_part_dm_notif :
    ∀ (c pre g1 g2 r3 : Chars),
      containsSub (chars "<DarkModeToggle") c = false →
      searchFrom AddDarkMode.matchNotifAt c = some (pre, (g1, g2, r3)) →
      AddDarkMode.add_dark_mode_toggle c =
          (pre ++ g1 ++ g2 ++ (chars "\n" ++ g1 ++ chars "{/* Dark Mode Toggle */}\n" ++
             g1 ++ chars "<DarkModeToggle />\n" ++ g1) ++ r3, true) ∧
        pre ++ (g1 ++ g2) ++ r3 = c ∧
        countOccur (chars "<DarkModeToggle")
          (pre ++ g1 ++ g2 ++ (chars "\n" ++ g1 ++ chars "{/* Dark Mode Toggle */}\n" ++
             g1 ++ chars "<DarkModeToggle />\n" ++ g1) ++ r3) = 1 := by
  intro c pre g1 g2 r3 hmark hs
  have hh : '<' ∉ chars "DarkModeToggle" := by decide
  have hguard : containsSub (chars "<DarkModeToggle />") c = false := by
    cases hgg : containsSub (chars "<DarkModeToggle />") c with
    | false => rfl
    | true =>
      have hmono := containsSub_mono_pat
        (show (chars "<DarkModeToggle").isPrefixOf (chars "<DarkModeToggle />") = true
          from by decide) hgg
      rw [hmono] at hmark
      simp at hmark
  have hsplice : pre ++ (g1 ++ g2) ++ r3 = c :=
    searchFrom_split (fun s g hg => (matchNotifAt_facts hg).1) hs
  obtain ⟨s2, hm2⟩ := searchFrom_matcher hs
  have hfacts := matchNotifAt_facts hm2
  have hg1ws : ∀ ch ∈ g1, isWS ch = true := hfacts.2.1
  obtain ⟨r2, hr3⟩ := hfacts.2.2
  have hr32 : r3 = '<' :: r2 := hr3
  have hout : AddDarkMode.add_dark_mode_toggle c =
      (pre ++ g1 ++ g2 ++ (chars "\n" ++ g1 ++ chars "{/* Dark Mode Toggle */}\n" ++
         g1 ++ chars "<DarkModeToggle />\n" ++ g1) ++ r3, true) := by
    unfold AddDarkMode.add_dark_mode_toggle
    rw [hs]
    simp [hguard]
  refine ⟨hout, hsplice, ?_⟩
  have hg1z : countOccur ('<' :: chars "DarkModeToggle") g1 = 0 :=
    countOccur_eq_zero (containsSub_false_of_ne_head (ws_all_ne_lt hg1ws))
  have hcfree : containsSub (chars "<DarkModeToggle")
      ((pre ++ (g1 ++ g2)) ++ r3) = false := by
    rw [show (pre ++ (g1 ++ g2)) ++ r3 = pre ++ (g1 ++ g2) ++ r3 from rfl, hsplice]
    exact hmark
  have hU0 : countOccur ('<' :: chars "DarkModeToggle") (pre ++ (g1 ++ g2)) = 0 :=
    countOccur_eq_zero (containsSub_false_left hcfree)
  have hW0 : countOccur ('<' :: chars "DarkModeToggle") r3 = 0 :=
    countOccur_eq_zero (containsSub_false_right hcfree)
  have hins : countOccur ('<' :: chars "DarkModeToggle")
      (chars "\n" ++ g1 ++ chars "{/* Dark Mode Toggle */}\n" ++ g1 ++
        chars "<DarkModeToggle />\n" ++ g1) = 1 := by
    have htail : countOccur ('<' :: chars "DarkModeToggle")
        (chars "<DarkModeToggle />\n" ++ g1) = 1 := by
      rw [show chars "<DarkModeToggle />\n" ++ g1
          = chars "<DarkModeToggle />" ++ '\n' :: g1 from rfl]
      rw [countOccur_append_sep
        (show ('\n' : Char) ∉ ('<' :: chars "DarkModeToggle") from by decide)]
      rw [countOccur_cons_sep
        (show ('\n' : Char) ∉ ('<' :: chars "DarkModeToggle") from by decide) (by simp)]
      rw [hg1z]
      rw [show countOccur ('<' :: chars "DarkModeToggle")
        (chars "<DarkModeToggle />") = 1 from by decide]
    rw [show chars "\n" ++ g1 ++ chars "{/* Dark Mode Toggle */}\n" ++ g1 ++
          chars "<DarkModeToggle />\n" ++ g1
        = '\n' :: (g1 ++ chars "{/* Dark Mode Toggle */}\n" ++ g1 ++
          (chars "<DarkModeToggle />\n" ++ g1)) from by
      simp [show chars "\n" = ['\n'] from rfl, List.append_assoc]]
    rw [countOccur_cons_sep
      (show ('\n' : Char) ∉ ('<' :: chars "DarkModeToggle") from by decide) (by simp)]
    exact count_block_aux hg1z htail ⟨chars "DarkModeToggle />\n" ++ g1, rfl⟩
  rw [show chars "<DarkModeToggle" = '<' :: chars "DarkModeToggle" from rfl]
  rw [show pre ++ g1 ++ g2 ++ (chars "\n" ++ g1 ++ chars "{/* Dark Mode Toggle */}\n" ++
        g1 ++ chars "<DarkModeToggle />\n" ++ g1) ++ r3
      = (pre ++ (g1 ++ g2)) ++ (chars "\n" ++ g1 ++ chars "{/* Dark Mode Toggle */}\n" ++
        g1 ++ chars "<DarkModeToggle />\n" ++ g1) ++ r3 from by
    simp [List.append_assoc]]
  exact countOccur_insertion hh (pre ++ (g1 ++ g2)) r3 _ hU0 hW0 hins
    ⟨'\n', g1 ++ chars "{/* Dark Mode Toggle */}\n" ++ g1 ++
      chars "<DarkModeToggle />\n" ++ g1, rfl, Or.inr (by decide)⟩
    (Or.inr (Or.inl ⟨'<', r2, hr32, Or.inl rfl⟩))

/-- Logout-button branch of `add_dark_mode_toggle`: the toggle line is
inserted between the flex container groups and the button tag; all input
bytes are preserved and the output has exactly one occurrence of the
marker. -/
theorem toggle_part_dm_logout :
    ∀ (c preL btn rL pre divTag g2 rest : Chars),
      containsSub (chars "<DarkModeToggle") c = false →
      searchFrom AddDarkMode.matchNotifAt c = none →
      searchFrom AddDarkMode.matchLogoutBtnAt c = some (preL, (btn, rL)) →
      searchFrom (AddDarkMode.matchContainerAt btn) c = some (pre, (divTag, g2, rest)) →
      AddDarkMode.add_dark_mode_toggle c =
          (pre ++ divTag ++ g2 ++
             (chars "\n" ++ (if (stripWS g2).isEmpty then chars "              " else g2) ++
              chars "<DarkModeToggle />\n" ++
              (if (stripWS g2).isEmpty then chars "              " else g2)) ++
             btn ++ rest, true) ∧
        pre ++ (divTag ++ g2 ++ btn) ++ rest = c ∧
        countOccur (chars "<DarkModeToggle")
          (pre ++ divTag ++ g2 ++
            (chars "\n" ++ (if (stripWS g2).isEmpty then chars "              " else g2) ++
             chars "<DarkModeToggle />\n" ++
             (if (stripWS g2).isEmpty then chars "              " else g2)) ++
            btn ++ rest) = 1 := by
  intro c preL btn rL pre divTag g2 rest hmark hnotif hlog hcont
  have hh : '<' ∉ chars "DarkModeToggle" := by decide
  have hguard : containsSub (chars "<DarkModeToggle />") c = false := by
    cases hgg : containsSub (chars "<DarkModeToggle />") c with
    | false => rfl
    | true =>
      have hmono := containsSub_mono_pat
        (show (chars "<DarkModeToggle").isPrefixOf (chars "<DarkModeToggle />") = true
          from by decide) hgg
      rw [hmono] at hmark
      simp at hmark
  have hsplice : pre ++ (divTag ++ g2 ++ btn) ++ rest = c :=
    searchFrom_split (fun s g hg => (matchContainerAt_facts hg).1) hcont
  obtain ⟨s2, hm2⟩ := searchFrom_matcher hcont
  have hg2lt : ∀ ch ∈ g2, ch ≠ '<' := (matchContainerAt_facts hm2).2
  obtain ⟨s3, hm3⟩ := searchFrom_matcher hlog
  obtain ⟨b2, hbtn⟩ := matchLogoutBtnAt_head hm3
  have hbtn2 : btn = '<' :: b2 := hbtn
  have hout : AddDarkMode.add_dark_mode_toggle c =
      (pre ++ divTag ++ g2 ++
         (chars "\n" ++ (if (stripWS g2).isEmpty then chars "              " else g2) ++
          chars "<DarkModeToggle />\n" ++
          (if (stripWS g2).isEmpty then chars "              " else g2)) ++
         btn ++ rest, true) := by
    unfold AddDarkMode.add_dark_mode_toggle
    rw [hnotif, hlog]
    simp [hguard, hcont]
  refine ⟨hout, hsplice, ?_⟩
  have hg2z : countOccur ('<' :: chars "DarkModeToggle") g2 = 0 :=
    countOccur_eq_zero (containsSub_false_of_ne_head hg2lt)
  have hcfree : containsSub (chars "<DarkModeToggle")
      ((pre ++ (divTag ++ g2)) ++ (btn ++ rest)) = false := by
    have hx := hmark
    rw [← hsplice] at hx
    simpa [List.append_assoc] using hx
  have hU0 : countOccur ('<' :: chars "DarkModeToggle") (pre ++ (divTag ++ g2)) = 0 :=
    countOccur_eq_zero (containsSub_false_left hcfree)
  have hW0 : countOccur ('<' :: chars "DarkModeToggle") (btn ++ rest) = 0 :=
    countOccur_eq_zero (containsSub_false_right hcfree)
  rw [show chars "<DarkModeToggle" = '<' :: chars "DarkModeToggle" from rfl]
  cases hstr : (stripWS g2).isEmpty with
  | true =>
    rw [if_pos rfl]
    rw [show pre ++ divTag ++ g2 ++
          (chars "\n" ++ chars "              " ++ chars "<DarkModeToggle />\n" ++
           chars "              ") ++ btn ++ rest
        = (pre ++ (divTag ++ g2)) ++
          (chars "\n" ++ chars "              " ++ chars "<DarkModeToggle />\n" ++
           chars "              ") ++ (btn ++ rest) from by
      simp [List.append_assoc]]
    exact countOccur_insertion hh (pre ++ (divTag ++ g2)) (btn ++ rest) _ hU0 hW0
      (by decide)
      ⟨'\n', chars "              " ++ chars "<DarkModeToggle />\n" ++
        chars "              ", rfl, Or.inr (by decide)⟩
      (Or.inr (Or.inl ⟨'<', b2 ++ rest, by rw [hbtn2, List.cons_append], Or.inl rfl⟩))
  | false =>
    rw [if_neg (by decide)]
    have hins : countOccur ('<' :: chars "DarkModeToggle")
        (chars "\n" ++ g2 ++ chars "<DarkModeToggle />\n" ++ g2) = 1 := by
      have htail : countOccur ('<' :: chars "DarkModeToggle")
          (chars "<DarkModeToggle />\n" ++ g2) = 1 := by
        rw [show chars "<DarkModeToggle />\n" ++ g2
            = chars "<DarkModeToggle />" ++ '\n' :: g2 from rfl]
        rw [countOccur_append_sep
          (show ('\n' : Char) ∉ ('<' :: chars "DarkModeToggle") from by decide)]
        rw [countOccur_cons_sep
          (show ('\n' : Char) ∉ ('<' :: chars "DarkModeToggle") from by decide) (by simp)]
        rw [hg2z]
        rw [show countOccur ('<' :: chars "DarkModeToggle")
          (chars "<DarkModeToggle />") = 1 from by decide]
      rw [show chars "\n" ++ g2 ++ chars "<DarkModeToggle />\n" ++ g2
          = '\n' :: (g2 ++ (chars "<DarkModeToggle />\n" ++ g2)) from by
        simp [show chars "\n" = ['\n'] from rfl, List.append_assoc]]
      rw [countOccur_cons_sep
        (show ('\n' : Char) ∉ ('<' :: chars "DarkModeToggle") from by decide) (by simp)]
      rw [countOccur_split2 hh g2
        (show chars "<DarkModeToggle />\n" ++ g2
            = '<' :: (chars "DarkModeToggle />\n" ++ g2) from rfl) (Or.inl rfl)]
      rw [hg2z, htail]
    rw [show pre ++ divTag ++ g2 ++
          (chars "\n" ++ g2 ++ chars "<DarkModeToggle />\n" ++ g2) ++ btn ++ rest
        = (pre ++ (divTag ++ g2)) ++
          (chars "\n" ++ g2 ++ chars "<DarkModeToggle />\n" ++ g2) ++
          (btn ++ rest) from by
      simp [List.append_assoc]]
    exact countOccur_insertion hh (pre ++ (divTag ++ g2)) (btn ++ rest) _ hU0 hW0 hins
      ⟨'\n', g2 ++ chars "<DarkModeToggle />\n" ++ g2, rfl, Or.inr (by decide)⟩
      (Or.inr (Or.inl ⟨'<', b2 ++ rest, by rw [hbtn2, List.cons_append], Or.inl rfl⟩))

/-! ## Claim theorems -/

/-- Counterexample to claim C1 ("any exception raised while reading,
transforming, or writing a file is caught inside the per-file step, so no
per-file error propagates out of the loop and aborts the batch"):
in `manual_toggle_add.py`, `add_toggle` has no `try`/`except`, so a read
error on the first file propagates out of the loop in `main` as an exception and
the second file is never processed. -/
theorem c1_counterexample :
    ManualToggleAdd.main
      [("a.tsx", FileEntry.unreadable "Permission denied"),
       ("b.tsx", FileEntry.text (chars "hi"))]
      ["a.tsx", "b.tsx"] = Except.error "Permission denied" := by rfl

/-- Claim C1 (amended): in `add_dark_mode.py`, `add_toggle_component.py`
and `add_toggle_final.py` the per-file step catches every exception; a file
whose read raises is logged as an error, the file system is untouched, the
counters of the remaining files are unaffected, and the loop continues over
the remaining files in all three scripts (in `manual_toggle_add.py` there
is no such handler and the error aborts the batch, see the
counterexample). -/
theorem c1_errors_caught_batch_continues (fs : FS) (p e : String) (rest : List String)
    (hex : FS.pathExists fs p = true)
    (hread : FS.read fs p = Except.error e) :
    AddDarkMode.main fs (p :: rest) =
      ((AddDarkMode.main fs rest).1,
       (AddDarkMode.main fs rest).2.1 + 1,
       (AddDarkMode.main fs rest).2.2.1,
       [LogEvent.processingEv p, LogEvent.errEv p e] ++ (AddDarkMode.main fs rest).2.2.2) ∧
    AddToggleComponent.main fs (p :: rest) =
      ((AddToggleComponent.main fs rest).1,
       (AddToggleComponent.main fs rest).2.1,
       (AddToggleComponent.main fs rest).2.2.1,
       LogEvent.errEv p e :: (AddToggleComponent.main fs rest).2.2.2) ∧
    AddToggleFinal.main fs (p :: rest) =
      ((AddToggleFinal.main fs rest).1,
       (AddToggleFinal.main fs rest).2.1,
       LogEvent.errEv p e :: (AddToggleFinal.main fs rest).2.2) := by
  refine ⟨?_, ?_, ?_⟩
  · have hpf : AddDarkMode.process_file fs p =
        (fs, false, [LogEvent.processingEv p, LogEvent.errEv p e]) := by
      unfold AddDarkMode.process_file
      rw [hread]
    conv_lhs => rw [AddDarkMode.main]
    rw [hex, hpf]
    simp
  · have hpf : AddToggleComponent.process_file fs p =
        (fs, false, [LogEvent.errEv p e]) := by
      unfold AddToggleComponent.process_file
      rw [hread]
    conv_lhs => rw [AddToggleComponent.main]
    rw [hex, hpf]
    simp [(by decide : containsSub (chars "[MANUAL]") (chars (pyStr false)) = false)]
  · have hpf : AddToggleFinal.process_file fs p =
        (fs, false, [LogEvent.errEv p e]) := by
      unfold AddToggleFinal.process_file
      rw [hread]
    conv_lhs => rw [AddToggleFinal.main]
    rw [hex, hpf]
    simp

/-- Witness for the amended claim C1 at a concrete batch whose single file
is unreadable: all three loops record the error as an ordinary outcome. -/
theorem c1_errors_caught_witness :
    (AddDarkMode.main [("a.tsx", FileEntry.unreadable "boom")] ["a.tsx"] =
      ((AddDarkMode.main [("a.tsx", FileEntry.unreadable "boom")] []).1,
       (AddDarkMode.main [("a.tsx", FileEntry.unreadable "boom")] []).2.1 + 1,
       (AddDarkMode.main [("a.tsx", FileEntry.unreadable "boom")] []).2.2.1,
       [LogEvent.processingEv "a.tsx", LogEvent.errEv "a.tsx" "boom"] ++
         (AddDarkMode.main [("a.tsx", FileEntry.unreadable "boom")] []).2.2.2)) ∧
    (AddToggleComponent.main [("a.tsx", FileEntry.unreadable "boom")] ["a.tsx"] =
      ((AddToggleComponent.main [("a.tsx", FileEntry.unreadable "boom")] []).1,
       (AddToggleComponent.main [("a.tsx", FileEntry.unreadable "boom")] []).2.1,
       (AddToggleComponent.main [("a.tsx", FileEntry.unreadable "boom")] []).2.2.1,
       LogEvent.errEv "a.tsx" "boom" ::
         (AddToggleComponent.main [("a.tsx", FileEntry.unreadable "boom")] []).2.2.2)) ∧
    (AddToggleFinal.main [("a.tsx", FileEntry.unreadable "boom")] ["a.tsx"] =
      ((AddToggleFinal.main [("a.tsx", FileEntry.unreadable "boom")] []).1,
       (AddToggleFinal.main [("a.tsx", FileEntry.unreadable "boom")] []).2.1,
       LogEvent.errEv "a.tsx" "boom" ::
         (AddToggleFinal.main [("a.tsx", FileEntry.unreadable "boom")] []).2.2)) :=
  c1_errors_caught_batch_continues
    [("a.tsx", FileEntry.unreadable "boom")] "a.tsx" "boom" [] (by rfl) (by rfl)

/-- Counterexample to claim C4 ("for every path in a run's file list that
does not exist on disk, the run logs a warning naming the file"):
`add_toggle_final.py` and `manual_toggle_add.py` skip a missing path with
no log output at all. -/
theorem c4_counterexample :
    AddToggleFinal.main [("x.tsx", FileEntry.text (chars "hi"))] ["missing.tsx"] =
        ([("x.tsx", FileEntry.text (chars "hi"))], 0, []) ∧
      ManualToggleAdd.main [("y.tsx", FileEntry.text (chars "ho"))] ["gone.tsx"] =
        Except.ok ([("y.tsx", FileEntry.text (chars "ho"))], 0, []) :=
  ⟨by rfl, by rfl⟩

/-- Claim C4 (amended): a missing path is skipped without a read and the
batch continues in all four scripts; `add_dark_mode.py` and
`add_toggle_component.py` log a warning naming the file, while
`add_toggle_final.py` and `manual_toggle_add.py` skip it silently. -/
theorem c4_missing_file_skipped (fs : FS) (p : String) (rest : List String)
    (h : FS.pathExists fs p = false) :
    AddDarkMode.main fs (p :: rest) =
      ((AddDarkMode.main fs rest).1, (AddDarkMode.main fs rest).2.1,
       (AddDarkMode.main fs rest).2.2.1,
       LogEvent.warnNotFound p :: (AddDarkMode.main fs rest).2.2.2) ∧
    AddToggleComponent.main fs (p :: rest) =
      ((AddToggleComponent.main fs rest).1, (AddToggleComponent.main fs rest).2.1,
       (AddToggleComponent.main fs rest).2.2.1,
       LogEvent.warnNotFound p :: (AddToggleComponent.main fs rest).2.2.2) ∧
    AddToggleFinal.main fs (p :: rest) = AddToggleFinal.main fs rest ∧
    ManualToggleAdd.main fs (p :: rest) = ManualToggleAdd.main fs rest := by
  refine ⟨?_, ?_, ?_, ?_⟩
  · conv_lhs => rw [AddDarkMode.main]
    rw [h]; simp
  · conv_lhs => rw [AddToggleComponent.main]
    rw [h]; simp
  · conv_lhs => rw [AddToggleFinal.main]
    rw [h]; simp
  · conv_lhs => rw [ManualToggleAdd.main]
    rw [h]; simp

/-- Witness for the amended claim C4 at a concrete missing path. -/
theorem c4_missing_file_witness :
    AddDarkMode.main [("x.tsx", FileEntry.text (chars "hi"))] ["missing.tsx"] =
      ((AddDarkMode.main [("x.tsx", FileEntry.text (chars "hi"))] []).1,
       (AddDarkMode.main [("x.tsx", FileEntry.text (chars "hi"))] []).2.1,
       (AddDarkMode.main [("x.tsx", FileEntry.text (chars "hi"))] []).2.2.1,
       LogEvent.warnNotFound "missing.tsx" ::
         (AddDarkMode.main [("x.tsx", FileEntry.text (chars "hi"))] []).2.2.2) ∧
    AddToggleComponent.main [("x.tsx", FileEntry.text (chars "hi"))] ["missing.tsx"] =
      ((AddToggleComponent.main [("x.tsx", FileEntry.text (chars "hi"))] []).1,
       (AddToggleComponent.main [("x.tsx", FileEntry.text (chars "hi"))] []).2.1,
       (AddToggleComponent.main [("x.tsx", FileEntry.text (chars "hi"))] []).2.2.1,
       LogEvent.warnNotFound "missing.tsx" ::
         (AddToggleComponent.main [("x.tsx", FileEntry.text (chars "hi"))] []).2.2.2) ∧
    AddToggleFinal.main [("x.tsx", FileEntry.text (chars "hi"))] ["missing.tsx"] =
      AddToggleFinal.main [("x.tsx", FileEntry.text (chars "hi"))] [] ∧
    ManualToggleAdd.main [("x.tsx", FileEntry.text (chars "hi"))] ["missing.tsx"] =
      ManualToggleAdd.main [("x.tsx", FileEntry.text (chars "hi"))] [] :=
  c4_missing_file_skipped [("x.tsx", FileEntry.text (chars "hi"))] "missing.tsx" [] (by rfl)

/-- Claim C5 (code bug, evaluated at the failing input): in
`add_toggle_component.py` a batch over one existing file that needs manual
intervention emits the `[MANUAL]` message (k = 1), yet the aggregate
`manual_count` stays 0: the guard `'[MANUAL]' in str(result)` tests the
string of the boolean `result` (`"True"`/`"False"`) and is always false, so
the summary never reports the manual files. -/
theorem c5_manual_count_never_incremented :
    AddToggleComponent.main
        [("client/src/pages/customer/MyReviews.tsx",
          FileEntry.text (chars "import DarkModeToggle from \x27../../components/DarkModeToggle\x27;\nexport default X"))]
        ["client/src/pages/customer/MyReviews.tsx"] =
      ([("client/src/pages/customer/MyReviews.tsx",
         FileEntry.text (chars "import DarkModeToggle from \x27../../components/DarkModeToggle\x27;\nexport default X"))],
       0, 0, [LogEvent.manualEv "client/src/pages/customer/MyReviews.tsx"]) ∧
    containsSub (chars "[MANUAL]") (chars (pyStr false)) = false :=
  ⟨by decide, by decide⟩

/-- Claim C10: for content with no substring matching the import pattern
`import ... from '...';` (the anchored import matcher fails at every
position) and no occurrence of `DarkModeToggle`, `add_import` returns the
content unchanged with `changed = False` — the import is never prepended to
an import-free file. -/
theorem c10_import_free_noop (content : Chars) (filePath : String)
    (hnoimp : ∀ i : Nat, AddDarkMode.matchImportAt (content.drop i) = none)
    (hmark : containsSub (chars "DarkModeToggle") content = false) :
    AddDarkMode.add_import content filePath = (content, false) := by
  have hs : searchFrom AddDarkMode.matchImportAt content = none :=
    (searchFrom_eq_none_iff _ _).mpr hnoimp
  unfold AddDarkMode.add_import AddDarkMode.importSplit
  rw [hmark]
  simp only [Bool.false_eq_true, if_false]
  rw [AddDarkMode.importSplitFuel, hs]

/-- Witness for claim C10 at a concrete import-free content. -/
theorem c10_import_free_witness :
    containsSub (chars "DarkModeToggle") (chars "export default hello") = false ∧
    AddDarkMode.add_import (chars "export default hello") "client/src/pages/auth/Login.tsx" =
      (chars "export default hello", false) :=
  ⟨by decide,
   c10_import_free_noop (chars "export default hello") "client/src/pages/auth/Login.tsx"
     ((searchFrom_eq_none_iff _ _).mp (by decide)) (by decide)⟩

/-- Counterexample to claim C2 ("output contains the base class and exactly
one appended variant, a second application appends nothing further, all
other text is unchanged"):
(i) the input `text-gray-900xt-gray-600` contains the bare base class
`text-gray-900`; the first pass rewrites it, but the inserted
`dark:text-white` together with the following text forms a new bare
occurrence of `text-gray-600` (`...text-whi` + `text-gray-600`), so a second
application of `add_dark_mode_classes` appends again;
(ii) matching is by raw substring, so in the input `bg-gray-500` — which is
not a class of the table but contains the bare key `bg-gray-50` — the pass
rewrites text outside any bare base class, yielding
`bg-gray-50 dark:bg-gray-9000`. -/
theorem c2_counterexample :
    AddDarkMode.hasBare (chars "text-gray-900") (chars "text-gray-900xt-gray-600") = true ∧
    (AddDarkMode.add_dark_mode_classes
        (AddDarkMode.add_dark_mode_classes (chars "text-gray-900xt-gray-600")).1).1 ≠
      (AddDarkMode.add_dark_mode_classes (chars "text-gray-900xt-gray-600")).1 ∧
    (AddDarkMode.add_dark_mode_classes (chars "bg-gray-500")).1 =
      chars "bg-gray-50 dark:bg-gray-9000" :=
  ⟨by decide, by decide, by decide⟩

/-- Claim C2 (amended): for each mapping of `CLASS_MAPPINGS`, whenever the
input has a bare occurrence of the base key (an occurrence not already
followed by optional whitespace and `dark:`), the substitution pass for that
mapping produces output containing the replacement — the base class
followed by its `dark:` variant.  Matching is substring-based rather than
class-token-based, and the full ten-mapping pass is not idempotent on all
inputs (see the counterexample). -/
theorem c2_bare_occurrence_replaced (base repl s : Chars)
    (_hmem : (base, repl) ∈ AddDarkMode.CLASS_MAPPINGS)
    (hbare : AddDarkMode.hasBare base s = true) :
    containsSub repl (AddDarkMode.reSubDark base repl s) = true := by
  unfold AddDarkMode.reSubDark
  exact reSubDarkFuel_contains_repl s.length base repl s le_rfl hbare

/-- Witness for the amended claim C2: `bg-white` occurs bare in the input
and the pass output contains `bg-white dark:bg-gray-800`. -/
theorem c2_bare_occurrence_witness :
    (chars "bg-white", chars "bg-white dark:bg-gray-800") ∈ AddDarkMode.CLASS_MAPPINGS ∧
    AddDarkMode.hasBare (chars "bg-white") (chars "<div className=\"bg-white p-4\">") = true ∧
    containsSub (chars "bg-white dark:bg-gray-800")
      (AddDarkMode.reSubDark (chars "bg-white") (chars "bg-white dark:bg-gray-800")
        (chars "<div className=\"bg-white p-4\">")) = true :=
  ⟨by decide, by decide,
   c2_bare_occurrence_replaced (chars "bg-white") (chars "bg-white dark:bg-gray-800")
     (chars "<div className=\"bg-white p-4\">") (by decide) (by decide)⟩

/-- Counterexample to claim C3 ("applying the whole-file
transformation twice yields output identical to applying it once; content
already containing the marker is returned unchanged"):
for the `process_file` transformation of `add_dark_mode.py`, on the input
`Xtext-gray-900xt-gray-600` the first application rewrites `text-gray-900`,
and the inserted `dark:text-white` together with the following text forms a
new bare `text-gray-600`, which the second application rewrites as well —
applying the transformation twice differs from applying it once. -/
theorem c3_counterexample :
    AddDarkMode.transformContent "client/src/pages/customer/Dashboard.tsx"
        (AddDarkMode.transformContent "client/src/pages/customer/Dashboard.tsx"
          (chars "Xtext-gray-900xt-gray-600")) ≠
      AddDarkMode.transformContent "client/src/pages/customer/Dashboard.tsx"
        (chars "Xtext-gray-900xt-gray-600") := by decide

/-- Claim C3 (amended): the `process_file` transformation of
`add_toggle_final.py` is idempotent — a second application returns its own output
byte-for-byte — and any content already containing the marker
`<DarkModeToggle` is returned byte-for-byte unchanged.
(The `add_dark_mode.py` transformation is neither, see the counterexample:
its class-append step runs regardless of the markers guarding the other
two steps.) -/
theorem c3_toggle_final_idempotent :
    (∀ c : Chars, AddToggleFinal.transformContent (AddToggleFinal.transformContent c) =
      AddToggleFinal.transformContent c) ∧
    (∀ c : Chars, containsSub (chars "<DarkModeToggle") c = true →
      AddToggleFinal.transformContent c = c) := by
  have hmarker : ∀ c : Chars, containsSub (chars "<DarkModeToggle") c = true →
      AddToggleFinal.transformContent c = c := by
    intro c h
    unfold AddToggleFinal.transformContent
    rw [h]
    simp
  refine ⟨?_, hmarker⟩
  intro c
  by_cases h1 : containsSub (chars "<DarkModeToggle") c = true
  · rw [hmarker c h1, hmarker c h1]
  · by_cases h2 : containsSub (chars "import DarkModeToggle") c = true
    · by_cases h3 : (AddToggleFinal.add_toggle_generic c).2 = true
      · have e : AddToggleFinal.transformContent c = (AddToggleFinal.add_toggle_generic c).1 := by
          unfold AddToggleFinal.transformContent
          rw [Bool.not_eq_true] at h1
          simp [h1, h2, h3]
        rw [e, hmarker _ (add_toggle_generic_contains h3)]
      · have e : AddToggleFinal.transformContent c = c := by
          unfold AddToggleFinal.transformContent
          rw [Bool.not_eq_true] at h1 h3
          simp [h1, h2, h3]
        rw [e, e]
    · have e : AddToggleFinal.transformContent c = c := by
        unfold AddToggleFinal.transformContent
        rw [Bool.not_eq_true] at h1
        rw [Bool.not_eq_true] at h2
        simp [h1, h2]
      rw [e, e]

/-- Witness for the amended claim C3: a concrete marker-bearing content is
returned unchanged. -/
theorem c3_toggle_final_witness :
    containsSub (chars "<DarkModeToggle") (chars "a <DarkModeToggle /> b") = true ∧
    AddToggleFinal.transformContent (chars "a <DarkModeToggle /> b") =
      chars "a <DarkModeToggle /> b" :=
  ⟨by decide, c3_toggle_final_idempotent.2 (chars "a <DarkModeToggle /> b") (by decide)⟩

/-- Claim C6: a processed file is written back if and only if the
transformed content differs from the content read.  For `add_dark_mode.py`
this is the explicit `newContent != content` guard; for
`manual_toggle_add.py` every successful patch strictly grows the content
(so its unconditional write in the match branch only ever writes changed
content), and when the pattern does not match no write occurs. -/
theorem c6_write_iff_changed (fs : FS) (p : String) (c : Chars)
    (hread : FS.read fs p = Except.ok c) :
    (AddDarkMode.transformContent p c = c →
       AddDarkMode.process_file fs p = (fs, false, [.processingEv p, .skipEv p])) ∧
    (AddDarkMode.transformContent p c ≠ c →
       AddDarkMode.process_file fs p =
         (FS.write fs p (AddDarkMode.transformContent p c), true,
          [.processingEv p, .okEv p])) ∧
    (∀ nc, ManualToggleAdd.patchContent c = some nc → nc ≠ c) ∧
    (containsSub (chars "<DarkModeToggle") c = false →
      (∀ nc, ManualToggleAdd.patchContent c = some nc →
        ManualToggleAdd.add_toggle fs p =
          Except.ok (FS.write fs p nc, true, [.okEv p])) ∧
      (ManualToggleAdd.patchContent c = none →
        ManualToggleAdd.add_toggle fs p = Except.ok (fs, false, [.failedEv p]))) := by
  refine ⟨?_, ?_, ?_, ?_⟩
  · intro heq
    unfold AddDarkMode.process_file
    rw [hread]
    simp [heq]
  · intro hne
    unfold AddDarkMode.process_file
    rw [hread]
    simp [hne]
  · intro nc hp
    exact patchContent_ne hp
  · intro hmark
    constructor
    · intro nc hp
      unfold ManualToggleAdd.add_toggle
      rw [hread]
      simp only [Bind.bind, Except.bind, pure, Except.pure, hmark, hp]
      simp
    · intro hp
      unfold ManualToggleAdd.add_toggle
      rw [hread]
      simp only [Bind.bind, Except.bind, pure, Except.pure, hmark, hp]
      simp

/-- Witness for claim C6 at a concrete file: the dark-mode transformation
leaves this content unchanged and the file is not written; the manual
toggle patch changes the content (and writes exactly that content). -/
theorem c6_write_iff_changed_witness :
    AddDarkMode.process_file
        [("client/src/pages/customer/A.tsx",
          FileEntry.text (chars "<a><Link to=\"/x/dashboard\">D</Link></a>"))]
        "client/src/pages/customer/A.tsx" =
      ([("client/src/pages/customer/A.tsx",
         FileEntry.text (chars "<a><Link to=\"/x/dashboard\">D</Link></a>"))],
       false, [.processingEv "client/src/pages/customer/A.tsx",
               .skipEv "client/src/pages/customer/A.tsx"]) ∧
    (∀ nc, ManualToggleAdd.patchContent (chars "<a><Link to=\"/x/dashboard\">D</Link></a>") =
        some nc → nc ≠ chars "<a><Link to=\"/x/dashboard\">D</Link></a>") := by
  have h := c6_write_iff_changed
    [("client/src/pages/customer/A.tsx",
      FileEntry.text (chars "<a><Link to=\"/x/dashboard\">D</Link></a>"))]
    "client/src/pages/customer/A.tsx"
    (chars "<a><Link to=\"/x/dashboard\">D</Link></a>") (by rfl)
  exact ⟨h.1 (by decide), h.2.2.1⟩

/-- Claim C7 ("for every input string that contains a recognized anchor
pattern and does not contain the done-marker, the toggle-insertion
transformation inserts exactly one occurrence of the new toggle content
immediately adjacent to the anchor, and every byte of the input outside
the insertion point appears unchanged in the output"): proved for all
cited variants — `add_toggle_to_auth_page`, each of the four anchor
patterns of `add_toggle_to_standard_page` (taken in priority order), and
both branches of `add_dark_mode_toggle`.  In every variant the output
equals the input with one insertion block spliced in at the anchor, so
every input byte outside the insertion point is preserved, and the output
contains exactly one occurrence of the marker `<DarkModeToggle`. -/
theorem c7_toggle_insertion :
    (∀ (c pre : Chars) (m : AddToggleComponent.MAuth),
      containsSub (chars "<DarkModeToggle") c = false →
      searchFrom AddToggleComponent.matchAuthAt c = some (pre, m) →
      AddToggleComponent.add_toggle_to_auth_page c =
          (pre ++ m.consumed ++ AddToggleComponent.toggle_html ++ m.rest, true) ∧
        pre ++ m.consumed ++ m.rest = c ∧
        countOccur (chars "<DarkModeToggle")
          (pre ++ m.consumed ++ AddToggleComponent.toggle_html ++ m.rest) = 1) ∧
    (∀ (c pre g1 r1 : Chars),
      containsSub (chars "<DarkModeToggle") c = false →
      searchFrom AddToggleComponent.matchP1At c = some (pre, (g1, r1)) →
      AddToggleComponent.add_toggle_to_standard_page c =
          (pre ++ (g1 ++ chars "{/* Dark Mode Toggle */}\n" ++ g1 ++
             chars "<DarkModeToggle />\n\n" ++ g1) ++ g1 ++ r1, true) ∧
        pre ++ g1 ++ r1 = c ∧
        countOccur (chars "<DarkModeToggle")
          (pre ++ (g1 ++ chars "{/* Dark Mode Toggle */}\n" ++ g1 ++
             chars "<DarkModeToggle />\n\n" ++ g1) ++ g1 ++ r1) = 1) ∧
    (∀ (c pre divTag g2 rest : Chars),
      containsSub (chars "<DarkModeToggle") c = false →
      searchFrom AddToggleComponent.matchP1At c = none →
      searchFrom AddToggleComponent.matchP2At c = some (pre, (divTag, g2, rest)) →
      AddToggleComponent.add_toggle_to_standard_page c =
          (pre ++ (divTag ++ g2 ++ chars "<DarkModeToggle />" ++ g2 ++
             chars "<NotificationBell") ++ rest, true) ∧
        pre ++ (divTag ++ g2 ++ chars "<NotificationBell") ++ rest = c ∧
        countOccur (chars "<DarkModeToggle")
          (pre ++ (divTag ++ g2 ++ chars "<DarkModeToggle />" ++ g2 ++
             chars "<NotificationBell") ++ rest) = 1) ∧
    (∀ (c pre divTag g2 btn rest : Chars),
      containsSub (chars "<DarkModeToggle") c = false →
      searchFrom AddToggleComponent.matchP1At c = none →
      searchFrom AddToggleComponent.matchP2At c = none →
      searchFrom AddToggleComponent.matchP3At c = some (pre, (divTag, g2, btn, rest)) →
      AddToggleComponent.add_toggle_to_standard_page c =
          (pre ++ (divTag ++ g2 ++ chars "<DarkModeToggle />" ++
             (if g2.contains '\n' then chars "\n              " else chars " ") ++
             btn) ++ rest, true) ∧
        pre ++ (divTag ++ g2 ++ btn) ++ rest = c ∧
        countOccur (chars "<DarkModeToggle")
          (pre ++ (divTag ++ g2 ++ chars "<DarkModeToggle />" ++
             (if g2.contains '\n' then chars "\n              " else chars " ") ++
             btn) ++ rest) = 1) ∧
    (∀ (c pre consumed rest : Chars),
      containsSub (chars "<DarkModeToggle") c = false →
      searchFrom AddToggleComponent.matchP1At c = none →
      searchFrom AddToggleComponent.matchP2At c = none →
      searchFrom AddToggleComponent.matchP3At c = none →
      searchFrom AddToggleComponent.matchP4At c = some (pre, (consumed, rest)) →
      AddToggleComponent.add_toggle_to_standard_page c =
          (pre ++ consumed ++
             chars "\n              <DarkModeToggle />\n              " ++ rest,
           true) ∧
        pre ++ consumed ++ rest = c ∧
        countOccur (chars "<DarkModeToggle")
          (pre ++ consumed ++
            chars "\n              <DarkModeToggle />\n              " ++ rest) = 1) ∧
    (∀ (c pre g1 g2 r3 : Chars),
      containsSub (chars "<DarkModeToggle") c = false →
      searchFrom AddDarkMode.matchNotifAt c = some (pre, (g1, g2, r3)) →
      AddDarkMode.add_dark_mode_toggle c =
          (pre ++ g1 ++ g2 ++ (chars "\n" ++ g1 ++ chars "{/* Dark Mode Toggle */}\n" ++
             g1 ++ chars "<DarkModeToggle />\n" ++ g1) ++ r3, true) ∧
        pre ++ (g1 ++ g2) ++ r3 = c ∧
        countOccur (chars "<DarkModeToggle")
          (pre ++ g1 ++ g2 ++ (chars "\n" ++ g1 ++ chars "{/* Dark Mode Toggle */}\n" ++
             g1 ++ chars "<DarkModeToggle />\n" ++ g1) ++ r3) = 1) ∧
    (∀ (c preL btn rL pre divTag g2 rest : Chars),
      containsSub (chars "<DarkModeToggle") c = false →
      searchFrom AddDarkMode.matchNotifAt c = none →
      searchFrom AddDarkMode.matchLogoutBtnAt c = some (preL, (btn, rL)) →
      searchFrom (AddDarkMode.matchContainerAt btn) c = some (pre, (divTag, g2, rest)) →
      AddDarkMode.add_dark_mode_toggle c =
          (pre ++ divTag ++ g2 ++
             (chars "\n" ++ (if (stripWS g2).isEmpty then chars "              " else g2) ++
              chars "<DarkModeToggle />\n" ++
              (if (stripWS g2).isEmpty then chars "              " else g2)) ++
             btn ++ rest, true) ∧
        pre ++ (divTag ++ g2 ++ btn) ++ rest = c ∧
        countOccur (chars "<DarkModeToggle")
          (pre ++ divTag ++ g2 ++
            (chars "\n" ++ (if (stripWS g2).isEmpty then chars "              " else g2) ++
             chars "<DarkModeToggle />\n" ++
             (if (stripWS g2).isEmpty then chars "              " else g2)) ++
            btn ++ rest) = 1) :=
  ⟨toggle_part_auth, toggle_part_p1, toggle_part_p2, toggle_part_p3,
   toggle_part_p4, toggle_part_dm_notif, toggle_part_dm_logout⟩

/-- Witness for claim C7 at concrete inputs exercising the auth-page
anchor, standard-page patterns 2 and 4, and the NotificationBell branch of
`add_dark_mode_toggle`. -/
theorem c7_toggle_insertion_witness :
    (AddToggleComponent.add_toggle_to_auth_page
        (chars "return (<div className=\"min-h-screenX\">B") =
      ([] ++ chars "return (<div className=\"min-h-screenX\">" ++
         AddToggleComponent.toggle_html ++ chars "B", true) ∧
    [] ++ chars "return (<div className=\"min-h-screenX\">" ++ chars "B" =
      chars "return (<div className=\"min-h-screenX\">B" ∧
    countOccur (chars "<DarkModeToggle")
      ([] ++ chars "return (<div className=\"min-h-screenX\">" ++
        AddToggleComponent.toggle_html ++ chars "B") = 1) ∧
    (AddToggleComponent.add_toggle_to_standard_page
        (chars "<div className=\"flex space-x-4\"><NotificationBell x/>") =
      ([] ++ (chars "<div className=\"flex space-x-4\">" ++ [] ++
         chars "<DarkModeToggle />" ++ [] ++ chars "<NotificationBell") ++
        chars " x/>", true) ∧
    [] ++ (chars "<div className=\"flex space-x-4\">" ++ [] ++
       chars "<NotificationBell") ++ chars " x/>" =
      chars "<div className=\"flex space-x-4\"><NotificationBell x/>" ∧
    countOccur (chars "<DarkModeToggle")
      ([] ++ (chars "<div className=\"flex space-x-4\">" ++ [] ++
         chars "<DarkModeToggle />" ++ [] ++ chars "<NotificationBell") ++
        chars " x/>") = 1) ∧
    (AddToggleComponent.add_toggle_to_standard_page
        (chars "/* Actions */ <div x>") =
      ([] ++ chars "/* Actions */ <div x>" ++
         chars "\n              <DarkModeToggle />\n              " ++ [], true) ∧
    [] ++ chars "/* Actions */ <div x>" ++ [] = chars "/* Actions */ <div x>" ∧
    countOccur (chars "<DarkModeToggle")
      ([] ++ chars "/* Actions */ <div x>" ++
        chars "\n              <DarkModeToggle />\n              " ++ []) = 1) ∧
    (AddDarkMode.add_dark_mode_toggle (chars "ab <NotificationBell />") =
      (chars "ab" ++ chars " " ++ [] ++ (chars "\n" ++ chars " " ++
         chars "{/* Dark Mode Toggle */}\n" ++ chars " " ++
         chars "<DarkModeToggle />\n" ++ chars " ") ++
        chars "<NotificationBell />", true) ∧
    chars "ab" ++ (chars " " ++ []) ++ chars "<NotificationBell />" =
      chars "ab <NotificationBell />" ∧
    countOccur (chars "<DarkModeToggle")
      (chars "ab" ++ chars " " ++ [] ++ (chars "\n" ++ chars " " ++
         chars "{/* Dark Mode Toggle */}\n" ++ chars " " ++
         chars "<DarkModeToggle />\n" ++ chars " ") ++
        chars "<NotificationBell />") = 1) :=
  ⟨c7_toggle_insertion.1 (chars "return (<div className=\"min-h-screenX\">B") []
      ⟨chars "return (<div className=\"min-h-screenX\">", chars "B"⟩
      (by decide) (by rfl),
   c7_toggle_insertion.2.2.1
      (chars "<div className=\"flex space-x-4\"><NotificationBell x/>") []
      (chars "<div className=\"flex space-x-4\">") [] (chars " x/>")
      (by decide) (by rfl) (by rfl),
   c7_toggle_insertion.2.2.2.2.1 (chars "/* Actions */ <div x>") []
      (chars "/* Actions */ <div x>") []
      (by decide) (by rfl) (by rfl) (by rfl) (by rfl),
   c7_toggle_insertion.2.2.2.2.2.1 (chars "ab <NotificationBell />")
      (chars "ab") (chars " ") [] (chars "<NotificationBell />")
      (by decide) (by rfl)⟩

/-- Claim C8: when none of the recognized anchor patterns match, the
transformation returns the input unchanged with `changed = False`; the file
is reported as needing manual intervention (`add_toggle_component.py`) or
as failed / pattern-not-found (`manual_toggle_add.py`), the file system is
untouched, and no exception is raised (the result is an ordinary return
value, not an error). -/
theorem c8_no_anchor_manual (c : Chars)
    (h1 : searchFrom AddToggleComponent.matchP1At c = none)
    (h2 : searchFrom AddToggleComponent.matchP2At c = none)
    (h3 : searchFrom AddToggleComponent.matchP3At c = none)
    (h4 : searchFrom AddToggleComponent.matchP4At c = none) :
    AddToggleComponent.add_toggle_to_standard_page c = (c, false) ∧
    (∀ (fs : FS) (p : String),
      FS.read fs p = Except.ok c →
      containsSub (chars "<DarkModeToggle") c = false →
      containsSub (chars "import DarkModeToggle") c = true →
      containsSub (chars "auth") (chars p) = false →
      AddToggleComponent.process_file fs p = (fs, false, [.manualEv p])) ∧
    (∀ (fs : FS) (p : String),
      FS.read fs p = Except.ok c →
      containsSub (chars "<DarkModeToggle") c = false →
      searchFrom ManualToggleAdd.matchLinkAt c = none →
      ManualToggleAdd.add_toggle fs p = Except.ok (fs, false, [.failedEv p])) := by
  have hstd : AddToggleComponent.add_toggle_to_standard_page c = (c, false) := by
    unfold AddToggleComponent.add_toggle_to_standard_page
    rw [h1, h2, h3, h4]
  refine ⟨hstd, ?_, ?_⟩
  · intro fs p hread hmark himp hauth
    unfold AddToggleComponent.process_file
    rw [hread]
    simp [hmark, himp, hauth, hstd]
  · intro fs p hread hmark hlink
    unfold ManualToggleAdd.add_toggle
    rw [hread]
    have hpc : ManualToggleAdd.patchContent c = none := by
      unfold ManualToggleAdd.patchContent
      rw [hlink]
    simp only [Bind.bind, Except.bind, pure, Except.pure, hmark, hpc]
    simp

/-- Witness for claim C8 at a concrete anchor-free standard page. -/
theorem c8_no_anchor_witness :
    AddToggleComponent.process_file
        [("client/src/pages/retailer/X.tsx",
          FileEntry.text (chars "import DarkModeToggle from \x27./c\x27;\nplain text"))]
        "client/src/pages/retailer/X.tsx" =
      ([("client/src/pages/retailer/X.tsx",
         FileEntry.text (chars "import DarkModeToggle from \x27./c\x27;\nplain text"))],
       false, [.manualEv "client/src/pages/retailer/X.tsx"]) ∧
    ManualToggleAdd.add_toggle
        [("client/src/pages/retailer/X.tsx",
          FileEntry.text (chars "import DarkModeToggle from \x27./c\x27;\nplain text"))]
        "client/src/pages/retailer/X.tsx" =
      Except.ok
        ([("client/src/pages/retailer/X.tsx",
           FileEntry.text (chars "import DarkModeToggle from \x27./c\x27;\nplain text"))],
         false, [.failedEv "client/src/pages/retailer/X.tsx"]) := by
  have h := c8_no_anchor_manual
    (chars "import DarkModeToggle from \x27./c\x27;\nplain text")
    (by decide) (by decide) (by decide) (by decide)
  exact ⟨h.2.1 _ _ (by rfl) (by decide) (by decide) (by decide),
         h.2.2 _ _ (by rfl) (by decide) (by decide)⟩

/-- Counterexample to claim C9 ("when more than one occurrence of a pattern
matches, the first successful match wins"): in `add_toggle_final.py`,
pattern-1 occurrences are processed via `reversed(matches)`, so with two
eligible `gap-4` containers the toggle is inserted at the LAST one (before
`B`), not the first (before `A`). -/
theorem c9_counterexample :
    AddToggleFinal.add_toggle_generic
        (chars "<div className=\"flex items-center gap-4\">A</div><div className=\"flex items-center gap-4\">B</div>") =
      (chars "<div className=\"flex items-center gap-4\">A</div><div className=\"flex items-center gap-4\">\n              <DarkModeToggle />\n              B</div>",
       true) ∧
    chars "<div className=\"flex items-center gap-4\">A</div><div className=\"flex items-center gap-4\">\n              <DarkModeToggle />\n              B</div>" ≠
      chars "<div className=\"flex items-center gap-4\">\n              <DarkModeToggle />\n              A</div><div className=\"flex items-center gap-4\">B</div>" :=
  ⟨by decide, by decide⟩

/-- Claim C9 (amended): the anchor PATTERNS of `add_toggle_generic` are
tried strictly in priority order — pattern 2 only when pattern 1 produced
no eligible insertion, pattern 3 only when patterns 1 and 2 failed, and the
not-found result only when all three failed; within patterns 1 and 2,
however, the eligible occurrences are scanned from the end of the file, so
the last eligible occurrence wins, not the first (see the counterexample). -/
theorem c9_pattern_priority (c nc : Chars) :
    (AddToggleFinal.attempt1 c = some nc →
      AddToggleFinal.add_toggle_generic c = (nc, true)) ∧
    (AddToggleFinal.attempt1 c = none → AddToggleFinal.attempt2 c = some nc →
      AddToggleFinal.add_toggle_generic c = (nc, true)) ∧
    (AddToggleFinal.attempt1 c = none → AddToggleFinal.attempt2 c = none →
      AddToggleFinal.attempt3 c = some nc →
      AddToggleFinal.add_toggle_generic c = (nc, true)) ∧
    (AddToggleFinal.attempt1 c = none → AddToggleFinal.attempt2 c = none →
      AddToggleFinal.attempt3 c = none →
      AddToggleFinal.add_toggle_generic c = (c, false)) := by
  refine ⟨?_, ?_, ?_, ?_⟩
  · intro ha1
    unfold AddToggleFinal.add_toggle_generic
    rw [ha1]
  · intro ha1 ha2
    unfold AddToggleFinal.add_toggle_generic
    rw [ha1, ha2]
  · intro ha1 ha2 ha3
    unfold AddToggleFinal.add_toggle_generic
    rw [ha1, ha2, ha3]
  · intro ha1 ha2 ha3
    unfold AddToggleFinal.add_toggle_generic
    rw [ha1, ha2, ha3]

/-- Witness for the amended claim C9: a single eligible pattern-1 occurrence
makes `add_toggle_generic` return exactly the pattern-1 insertion. -/
theorem c9_pattern_priority_witness :
    AddToggleFinal.attempt1 (chars "<div className=\"flex items-center gap-4\">A</div>") =
      some (chars "<div className=\"flex items-center gap-4\">\n              <DarkModeToggle />\n              A</div>") ∧
    AddToggleFinal.add_toggle_generic (chars "<div className=\"flex items-center gap-4\">A</div>") =
      (chars "<div className=\"flex items-center gap-4\">\n              <DarkModeToggle />\n              A</div>", true) :=
  ⟨by decide,
   (c9_pattern_priority (chars "<div className=\"flex items-center gap-4\">A</div>")
      (chars "<div className=\"flex items-center gap-4\">\n              <DarkModeToggle />\n              A</div>")).1
     (by decide)⟩
